import Mathlib

/-!
# Verification of the claim-management pipeline

Shallow embedding of the parts of the claim-management repository that the
verified properties are about:

* numeric string parsing (`app/svc_extractor/parsers.py`, `Parser.parse_number`,
  also used via `PrimitiveParser.parse_number` in the creator service),
* the template extraction engine (`Template.extract`, `Template.matches_keywords`,
  `Extractor._extract_data`),
* the line-item reconcilers (the `parse_items` implementations of `MarkantParser`,
  `ObiParser`, `RollerParser`, `ToomParser`, `HornbachParser`),
* the claim compiler (`Claim._get_transaction_type`, `Claim._get_reference`,
  `Claim._get_accounting_docs`, `Claim.create_status_sales`),
* the accounting-document search (`storage/sap/va03.py`),
* the downloader deduplication step (`Downloader._download_emails_data`),
* the credit-note recording protocol (`ClaimManager._record_creditnote`).

Python values are modelled by `PyVal` (floats as rationals, which is exact for
the decimal arithmetic these functions perform), exceptions by `PyErr` together
with `Except`, and Python dicts by ordered association lists.  The `re` regex
engine and the SAP RFC layer are external to the repository and are modelled as
oracles (function parameters).
-/

namespace ClaimMgmt

/-- Model of the Python values flowing through the pipeline. -/
inductive PyVal where
  | none
  | int (n : ℤ)
  | float (q : ℚ)
  | str (s : String)
  | list (xs : List PyVal)
  deriving Repr, Inhabited

instance {ε α : Type} [DecidableEq ε] [DecidableEq α] : DecidableEq (Except ε α) :=
  fun a b =>
    match a, b with
    | .ok x, .ok y =>
        if h : x = y then isTrue (by rw [h]) else isFalse (by simp [h])
    | .error x, .error y =>
        if h : x = y then isTrue (by rw [h]) else isFalse (by simp [h])
    | .ok _, .error _ => isFalse (by simp)
    | .error _, .ok _ => isFalse (by simp)

/-- Model of the Python exceptions (and warnings used as exceptions) raised by
the embedded code. -/
inductive PyErr where
  | patternMatchError (msg : String)
  | templateNotFoundError (msg : String)
  | valueError (msg : String)
  | typeError (msg : String)
  | keyError (key : String)
  | indexError
  | attributeError (msg : String)
  | assertionError (msg : String)
  | runtimeError (msg : String)
  | runtimeWarning (msg : String)
  | unboundLocalError (name : String)
  | zeroDivisionError
  | documentsNotFoundWarning (msg : String)
  | documentNotFoundError (msg : String)
  deriving Repr, BEq, DecidableEq, Inhabited

/-- Python dict with string keys: an ordered association list (insertion order,
one entry per key). -/
def Dict := List (String × PyVal)

instance : Inhabited Dict := ⟨([] : List (String × PyVal))⟩

/-- `d[k]` lookup (first binding wins; the update operation keeps keys unique). -/
def Dict.get? (d : Dict) (k : String) : Option PyVal :=
  match d with
  | [] => Option.none
  | (k', v) :: rest => if k' = k then some v else Dict.get? rest k

/-- `k in d` for a Python dict. -/
def Dict.hasKey (d : Dict) (k : String) : Bool :=
  (Dict.get? d k).isSome

/-- `d[k] = v`: overwrite in place if the key exists, else append (Python dicts
keep insertion order). -/
def Dict.set (d : Dict) (k : String) (v : PyVal) : Dict :=
  match d with
  | [] => [(k, v)]
  | (k', v') :: rest =>
      if k' = k then (k', v) :: rest else (k', v') :: Dict.set rest k v

/-- Keys of the dict, in order. -/
def Dict.keys (d : Dict) : List String :=
  (d : List (String × PyVal)).map Prod.fst

theorem Dict.get?_set_self (d : Dict) (k : String) (v : PyVal) :
    Dict.get? (Dict.set d k v) k = some v := by
  induction d with
  | nil => simp [Dict.set, Dict.get?]
  | cons hd tl ih =>
      obtain ⟨k', v'⟩ := hd
      by_cases h : k' = k <;> simp [Dict.set, Dict.get?, h, ih]

theorem Dict.get?_set_other (d : Dict) (k k' : String) (v : PyVal) (h : k' ≠ k) :
    Dict.get? (Dict.set d k v) k' = Dict.get? d k' := by
  have hne : k ≠ k' := fun h' => h h'.symm
  induction d with
  | nil => simp [Dict.set, Dict.get?, hne]
  | cons hd tl ih =>
      obtain ⟨k₀, v₀⟩ := hd
      by_cases h0 : k₀ = k
      · subst h0
        simp [Dict.set, Dict.get?, hne]
      · by_cases h1 : k₀ = k' <;> simp [Dict.set, Dict.get?, h0, h1, h, ih]

theorem Dict.hasKey_set (d : Dict) (k k' : String) (v : PyVal) :
    Dict.hasKey (Dict.set d k v) k' = (k' = k ∨ Dict.hasKey d k') := by
  by_cases h : k' = k
  · subst h; simp [Dict.hasKey, Dict.get?_set_self]
  · simp [Dict.hasKey, Dict.get?_set_other d k k' v h, h]

/-! ## Numeric string parsing

Model of `Parser.parse_number` (`app/svc_extractor/parsers.py`, lines 90-196).
The same numeric algorithm appears verbatim in
`app/svc_downloader/parsers.py` (`PrimitiveParser.parse_number`), which is the
class the creator service instantiates; the embedding below covers both.
Python `str.isnumeric` is modelled as "non-empty and all ASCII digits", and
`\D` in the `decimals` scan as "non ASCII digit", which agrees with Python on
all inputs the pipeline produces. -/

/-- Value of a most-significant-first list of digit characters
(the way `int(...)` reads a digit string). -/
def natOfDigitChars (cs : List Char) : ℕ :=
  cs.foldl (fun a c => a * 10 + (c.toNat - '0'.toNat)) 0

/-- Python `str.strip("-")`: drop all leading and trailing `'-'` characters. -/
def stripDashes (cs : List Char) : List Char :=
  ((cs.dropWhile (fun c => c = '-')).reverse.dropWhile (fun c => c = '-')).reverse

/-- Python `int(x)` on a float: truncation toward zero. -/
def truncQ (q : ℚ) : ℤ :=
  if 0 ≤ q then ⌊q⌋ else ⌈q⌉

/-- The `coerce` argument of `parse_number`. -/
inductive Coerce where
  | infer | toInt | toFloat
  deriving Repr, DecidableEq

/-- The `errors` argument of `parse_number`. -/
inductive ErrMode where
  | raise | ignore | devaluate
  deriving Repr, DecidableEq

/-- `repl = val.replace(" ", "").strip("-")`. -/
def pnRepl (s : String) : List Char :=
  stripDashes (s.data.filter (fun c => c ≠ ' '))

/-- `decimals = len(re.split(r"\\D", repl)[-1])` when `repl` contains a
non-digit, else 0: the length of the trailing digit run. -/
def pnDecimals (s : String) : ℕ :=
  if (pnRepl s).any (fun c => ¬ c.isDigit) then
    ((pnRepl s).reverse.takeWhile Char.isDigit).length
  else 0

/-- `repl.replace(".", "").replace(",", "")`. -/
def pnDigits (s : String) : List Char :=
  (pnRepl s).filter (fun c => c ≠ '.' ∧ c ≠ ',')

/-- `parsed = int(repl); parsed /= 10**decimals` (when `decimals != 0`). -/
def pnQ0 (s : String) : ℚ :=
  if pnDecimals s ≠ 0 then
    (natOfDigitChars (pnDigits s) : ℚ) / 10 ^ pnDecimals s
  else (natOfDigitChars (pnDigits s) : ℚ)

/-- `if "-" in val: parsed *= -1`. -/
def pnQ1 (s : String) : ℚ :=
  if s.data.contains '-' then -(pnQ0 s) else pnQ0 s

/-- `Parser.parse_number`: convert a string amount (German or English digit
grouping, optional sign) into a number.  Mirrors the source line by line
(each line is one of the `pn*` helpers above): spaces removed, `'-'` stripped
from both ends, the fractional width taken from the trailing digit run when
any non-digit is present, `'.'` and `','` removed, the remainder read as an
integer and scaled; type inferred as int exactly when no fractional width was
detected. -/
def parse_number (val : PyVal) (coerce : Coerce) (errors : ErrMode) : Except PyErr PyVal :=
  match val with
  | .str s =>
      if (pnDigits s).isEmpty ∨ ¬ (pnDigits s).all Char.isDigit then
        match errors with
        | .raise => .error (.typeError "Only numeric values are accepted!")
        | .ignore => .ok val
        | .devaluate => .ok .none
      else
        match coerce with
        | .infer =>
            if pnDecimals s = 0 then
              .ok (.int (if s.data.contains '-' then
                -(natOfDigitChars (pnDigits s) : ℤ)
              else (natOfDigitChars (pnDigits s) : ℤ)))
            else .ok (.float (pnQ1 s))
        | .toInt => .ok (.int (truncQ (pnQ1 s)))
        | .toFloat => .ok (.float (pnQ1 s))
  | _ =>
      -- `isinstance(val, str)` guard
      match errors with
      | .raise => .error (.typeError "Could not parse the value! Expected value type was str.")
      | .ignore => .ok val
      | .devaluate => .ok .none

/-- `Parser.parse_numbers`: parse every element of a list. -/
def parse_numbers (vals : List PyVal) (coerce : Coerce) : Except PyErr (List PyVal) :=
  vals.mapM (fun v => parse_number v coerce .raise)

end ClaimMgmt

namespace ClaimMgmt

/-! ## Transaction-type selection

Model of `Claim._get_transaction_type` (`app/svc_creator/compiler.py`,
lines 645-660) together with the category tables `Claim._categories`. -/

/-- `Claim._categories["QM"]`. -/
def qm_categories : List String :=
  ["delivery", "finance", "invoice", "penalty_general", "penalty_delay",
   "penalty_quote", "price", "rebuild", "return"]

/-- `Claim._categories["ZQM"]`. -/
def zqm_categories : List String :=
  ["bonus", "promo", "quality"]

/-- `Claim._get_transaction_type`.  `category` is `none` when the document is a
credit note (or the category is otherwise unset); membership of Python `None`
in the category tuples is `False`, as in the source. -/
def get_transaction_type (kind : String) (category : Option String) :
    Except PyErr String :=
  if kind = "debit" then
    match category with
    | some c =>
        if c ∈ qm_categories then .ok "QM"
        else if c ∈ zqm_categories then .ok "ZQM"
        else .error (.valueError "Unrecognized document category!")
    | Option.none => .error (.valueError "Unrecognized document category!")
  else if kind = "credit" then .ok "DMS"
  else .error (.valueError "Unrecognized document kind!")

/-! ## Reference selection

Model of `Claim._get_reference` (`app/svc_creator/compiler.py`, lines
543-643).  The `val` argument is the `reference_by` entry of the processing
rule: a static integer account number, a single field name, or a list of
field names.  `claim_create` is the `claim["claim_create"]` dict at the time
of the call. -/

/-- The `reference_by` rule value (`int`, `str` or `list` in the source). -/
inductive RefBy where
  | staticAcc (n : ℤ)
  | name (s : String)
  | names (l : List String)
  deriving Repr

/-- The ordered `available_refs` tuple inside `Claim._get_reference`. -/
def available_refs : List String :=
  ["invoice_number", "delivery_number", "purchase_order_number",
   "account_number", "head_office_number"]

/-- One pass of the `for ref_name in available_refs` loop: collect
`(used_valid_refs, unused_valid_refs)` in `available_refs` order.
`unused_refs` is `all_refs - used_refs` as in the source; a reference with a
non-null value is necessarily a key of `claim_create`, hence in `all_refs`. -/
def collect_valid_refs (cc : Dict) (used_refs unused_refs : List String) :
    List String → List (String × PyVal) × List (String × PyVal)
  | [] => ([], [])
  | r :: rest =>
      let (us, un) := collect_valid_refs cc used_refs unused_refs rest
      match Dict.get? cc r with
      | Option.none => (us, un)
      | some PyVal.none => (us, un)   -- `if ref_val is None: continue`
      | some v =>
          if r ∈ used_refs then ((r, v) :: us, un)
          else if r ∈ unused_refs then (us, (r, v) :: un)
          else (us, un)

/-- `all_refs = set(claim["claim_create"].keys()).intersection(available_refs)`
(only emptiness and membership of this set are ever used). -/
def all_refs_of (cc : Dict) : List String :=
  (Dict.keys cc).filter (fun k => decide (k ∈ available_refs))

/-- `unused_refs = set(all_refs).difference(used_refs)`. -/
def unused_refs_of (cc : Dict) (used_refs : List String) : List String :=
  (all_refs_of cc).filter (fun r => decide (r ∉ used_refs))

/-- The dynamic-reference part of `Claim._get_reference` (everything from the
`used_refs` assignment to the final selection), for a given list of used
reference names. -/
def get_reference_select (cc : Dict) (used_refs : List String) :
    Except PyErr (String × PyVal) :=
  -- `invalid_ref_flds = set(used_refs).difference(available_refs)`
  if ¬ (used_refs.filter (fun r => decide (r ∉ available_refs))).isEmpty then
    .error (.valueError "Unrecognized reference_by value!")
  else if (all_refs_of cc).isEmpty then
    .error (.runtimeWarning "No valid reference value found for notification creation.")
  else if (collect_valid_refs cc used_refs (unused_refs_of cc used_refs) available_refs).1.isEmpty ∧
      ¬ (collect_valid_refs cc used_refs (unused_refs_of cc used_refs) available_refs).2.isEmpty then
    .error (.runtimeError
      "Other references with valid values are available, but they aren't included in the reference_by parameter list.")
  else if (collect_valid_refs cc used_refs (unused_refs_of cc used_refs) available_refs).1.isEmpty ∧
      (collect_valid_refs cc used_refs (unused_refs_of cc used_refs) available_refs).2.isEmpty then
    .error (.runtimeError
      "There aren't any other references with valid values that could be used to create the notification.")
  else
    match (collect_valid_refs cc used_refs (unused_refs_of cc used_refs) available_refs).1 with
    | [] => .error (.runtimeError "unreachable")
    | sel :: _ => .ok sel

/-- `Claim._get_reference`: static integer `reference_by` values short-circuit
to an `account_number` reference; under `ZQM` only the two account reference
names are admissible (`val not in ("head_office_number", "account_number")` is
always true for a list value, so a list raises as well); otherwise the dynamic
selection runs on the candidate list. -/
def get_reference (transaction : String) (val : RefBy) (cc : Dict) :
    Except PyErr (String × PyVal) :=
  if transaction ∉ (["QM", "ZQM"] : List String) then
    .error (.assertionError "Reference identification is not applicable for this transaction!")
  else
    match val with
    | .staticAcc n => .ok ("account_number", .int n)
    | .name s =>
        if transaction = "ZQM" ∧
            s ∉ (["head_office_number", "account_number"] : List String) then
          .error (.valueError "Invalid reference_by value for category quality!")
        else get_reference_select cc [s]
    | .names l =>
        if transaction = "ZQM" then
          .error (.valueError "Invalid reference_by value for category quality!")
        else get_reference_select cc l

end ClaimMgmt

namespace ClaimMgmt

/-! ### Lemmas about the reference-collection loop -/

/-- The value of `claim_create[r]` when the key is present with a non-null
value (the references `Claim._get_reference` treats as valid). -/
def validVal (cc : Dict) (r : String) : Option PyVal :=
  match Dict.get? cc r with
  | Option.none => Option.none
  | some PyVal.none => Option.none
  | some v => some v

theorem validVal_isSome_get? (cc : Dict) (r : String)
    (h : (validVal cc r).isSome) : (Dict.get? cc r).isSome := by
  unfold validVal at h
  cases hg : Dict.get? cc r with
  | none => rw [hg] at h; simp at h
  | some v => simp

theorem get?_isSome_mem_keys (cc : Dict) (r : String)
    (h : (Dict.get? cc r).isSome) : r ∈ Dict.keys cc := by
  induction cc with
  | nil => simp [Dict.get?] at h
  | cons hd tl ih =>
      obtain ⟨k, v⟩ := hd
      by_cases hk : k = r
      · subst hk; simp [Dict.keys]
      · simp [Dict.get?, hk] at h
        simpa [Dict.keys] using Or.inr (by simpa [Dict.keys] using ih h)

theorem collect_valid_refs_fst (cc : Dict) (used unused : List String) :
    ∀ l : List String,
      (collect_valid_refs cc used unused l).1 =
        l.filterMap (fun r =>
          (validVal cc r).bind (fun v =>
            if r ∈ used then some (r, v) else Option.none)) := by
  intro l
  induction l with
  | nil => simp [collect_valid_refs]
  | cons r rest ih =>
      unfold collect_valid_refs
      cases hg : Dict.get? cc r with
      | none => simpa [List.filterMap_cons, validVal, hg] using ih
      | some v =>
          cases v with
          | none => simpa [List.filterMap_cons, validVal, hg] using ih
          | int n =>
              by_cases hu : r ∈ used
              · simp [List.filterMap_cons, validVal, hg, hu, ih]
              · by_cases hn : r ∈ unused <;>
                  simp [List.filterMap_cons, validVal, hg, hu, hn, ih]
          | float q =>
              by_cases hu : r ∈ used
              · simp [List.filterMap_cons, validVal, hg, hu, ih]
              · by_cases hn : r ∈ unused <;>
                  simp [List.filterMap_cons, validVal, hg, hu, hn, ih]
          | str s =>
              by_cases hu : r ∈ used
              · simp [List.filterMap_cons, validVal, hg, hu, ih]
              · by_cases hn : r ∈ unused <;>
                  simp [List.filterMap_cons, validVal, hg, hu, hn, ih]
          | list xs =>
              by_cases hu : r ∈ used
              · simp [List.filterMap_cons, validVal, hg, hu, ih]
              · by_cases hn : r ∈ unused <;>
                  simp [List.filterMap_cons, validVal, hg, hu, hn, ih]

theorem collect_valid_refs_snd (cc : Dict) (used unused : List String) :
    ∀ l : List String,
      (collect_valid_refs cc used unused l).2 =
        l.filterMap (fun r =>
          (validVal cc r).bind (fun v =>
            if r ∈ used then Option.none
            else if r ∈ unused then some (r, v) else Option.none)) := by
  intro l
  induction l with
  | nil => simp [collect_valid_refs]
  | cons r rest ih =>
      unfold collect_valid_refs
      cases hg : Dict.get? cc r with
      | none => simpa [List.filterMap_cons, validVal, hg] using ih
      | some v =>
          cases v with
          | none => simpa [List.filterMap_cons, validVal, hg] using ih
          | int n =>
              by_cases hu : r ∈ used
              · simp [List.filterMap_cons, validVal, hg, hu, ih]
              · by_cases hn : r ∈ unused <;>
                  simp [List.filterMap_cons, validVal, hg, hu, hn, ih]
          | float q =>
              by_cases hu : r ∈ used
              · simp [List.filterMap_cons, validVal, hg, hu, ih]
              · by_cases hn : r ∈ unused <;>
                  simp [List.filterMap_cons, validVal, hg, hu, hn, ih]
          | str s =>
              by_cases hu : r ∈ used
              · simp [List.filterMap_cons, validVal, hg, hu, ih]
              · by_cases hn : r ∈ unused <;>
                  simp [List.filterMap_cons, validVal, hg, hu, hn, ih]
          | list xs =>
              by_cases hu : r ∈ used
              · simp [List.filterMap_cons, validVal, hg, hu, ih]
              · by_cases hn : r ∈ unused <;>
                  simp [List.filterMap_cons, validVal, hg, hu, hn, ih]

end ClaimMgmt

namespace ClaimMgmt

/-! ### C5: transaction partition -/

theorem qm_zqm_disjoint (c : String) (h1 : c ∈ qm_categories)
    (h2 : c ∈ zqm_categories) : False := by
  fin_cases h1 <;> simp_all [zqm_categories]

/-- C5: for every successfully compiled claim, the transaction selected by
`Claim._get_transaction_type` (stored unchanged into `header.transaction` by
`Claim._compile`) is one of QM, ZQM, DMS; it is QM exactly for debit notes
with a QM category, ZQM exactly for debit notes with a ZQM category
({bonus, promo, quality}), and DMS exactly for credit notes. -/
theorem C5_transaction_partition (kind : String) (category : Option String)
    (tr : String) (h : get_transaction_type kind category = .ok tr) :
    tr ∈ (["QM", "ZQM", "DMS"] : List String) ∧
    (tr = "QM" ↔ kind = "debit" ∧ ∃ c, category = some c ∧ c ∈ qm_categories) ∧
    (tr = "ZQM" ↔ kind = "debit" ∧ ∃ c, category = some c ∧ c ∈ zqm_categories) ∧
    (tr = "DMS" ↔ kind = "credit") := by
  unfold get_transaction_type at h
  by_cases hd : kind = "debit"
  · subst hd
    simp only [if_pos rfl] at h
    cases category with
    | none => simp at h
    | some c =>
        by_cases hq : c ∈ qm_categories
        · simp only [if_pos hq] at h
          obtain rfl : "QM" = tr := by simpa using h
          refine ⟨by decide, by simp [hq], ?_, by decide⟩
          constructor
          · intro hx; exact absurd hx (by decide)
          · rintro ⟨-, c', hc', hz⟩
            obtain rfl : c = c' := by simpa using hc'
            exact (qm_zqm_disjoint c hq hz).elim
        · simp only [if_neg hq] at h
          by_cases hz : c ∈ zqm_categories
          · simp only [if_pos hz] at h
            obtain rfl : "ZQM" = tr := by simpa using h
            refine ⟨by decide, ?_, by simp [hz], by decide⟩
            constructor
            · intro hx; exact absurd hx (by decide)
            · rintro ⟨-, c', hc', hq'⟩
              obtain rfl : c = c' := by simpa using hc'
              exact (qm_zqm_disjoint c hq' hz).elim
          · simp [hz] at h
  · by_cases hc : kind = "credit"
    · subst hc
      have hnd : ¬ ("credit" : String) = "debit" := by decide
      simp only [if_neg hnd, if_pos rfl] at h
      obtain rfl : "DMS" = tr := by simpa using h
      refine ⟨by decide, ?_, ?_, by simp⟩
      · constructor
        · intro hx; exact absurd hx (by decide)
        · rintro ⟨hx, -⟩; exact absurd hx (by decide)
      · constructor
        · intro hx; exact absurd hx (by decide)
        · rintro ⟨hx, -⟩; exact absurd hx (by decide)
    · simp [hd, hc] at h

/-- Witness for C5 at a concrete input: a debit note with category
`delivery` compiles to transaction `QM`. -/
theorem C5_transaction_partition_witness :
    ("QM" : String) ∈ (["QM", "ZQM", "DMS"] : List String) ∧
    ("QM" = "QM" ↔ "debit" = "debit" ∧
      ∃ c, (some "delivery" : Option String) = some c ∧ c ∈ qm_categories) :=
  ⟨(C5_transaction_partition "debit" (some "delivery") "QM" rfl).1,
   (C5_transaction_partition "debit" (some "delivery") "QM" rfl).2.1⟩

end ClaimMgmt

namespace ClaimMgmt

theorem mem_collect_fst (cc : Dict) (used unused : List String)
    (l : List String) (p : String × PyVal)
    (h : p ∈ (collect_valid_refs cc used unused l).1) :
    p.1 ∈ used ∧ validVal cc p.1 = some p.2 := by
  rw [collect_valid_refs_fst] at h
  obtain ⟨r, _, hf⟩ := List.mem_filterMap.1 h
  cases hv : validVal cc r with
  | none => rw [hv] at hf; simp at hf
  | some v =>
      rw [hv] at hf
      replace hf : (if r ∈ used then some (r, v) else Option.none) = some p := hf
      by_cases hu : r ∈ used
      · rw [if_pos hu] at hf
        obtain rfl : (r, v) = p := by simpa using hf
        exact ⟨hu, hv⟩
      · rw [if_neg hu] at hf
        simp at hf

theorem get_reference_select_ok_mem (cc : Dict) (used : List String)
    (sel : String × PyVal) (h : get_reference_select cc used = .ok sel) :
    sel.1 ∈ used ∧ validVal cc sel.1 = some sel.2 := by
  unfold get_reference_select at h
  split at h
  · exact absurd h (by simp)
  · split at h
    · exact absurd h (by simp)
    · split at h
      · exact absurd h (by simp)
      · split at h
        · exact absurd h (by simp)
        · split at h
          · exact absurd h (by simp)
          · rename_i heq
            obtain rfl : _ = sel := by simpa using h
            exact mem_collect_fst cc used _ available_refs _
              (heq ▸ List.mem_cons_self _ _)

/-- C10: a compiled ZQM claim always references a customer account: the
selected reference returned by `Claim._get_reference` under transaction `ZQM`
is an account or head-office number (a static integer `reference_by` is
labelled `account_number`), and every other `reference_by` shape (a string
outside {`account_number`, `head_office_number`} or any list) raises
`ValueError`. -/
theorem C10_zqm_reference_account (val : RefBy) (cc : Dict) :
    (∀ sel : String × PyVal, get_reference "ZQM" val cc = .ok sel →
        sel.1 = "account_number" ∨ sel.1 = "head_office_number") ∧
    (∀ s, val = .name s →
        s ∉ (["head_office_number", "account_number"] : List String) →
        get_reference "ZQM" val cc =
          .error (.valueError "Invalid reference_by value for category quality!")) ∧
    (∀ l, val = .names l →
        get_reference "ZQM" val cc =
          .error (.valueError "Invalid reference_by value for category quality!")) := by
  refine ⟨?_, ?_, ?_⟩
  · intro sel h
    cases val with
    | staticAcc n =>
        simp only [get_reference] at h
        rw [if_neg (by decide : ¬ ("ZQM" : String) ∉ (["QM", "ZQM"] : List String))] at h
        obtain rfl : _ = sel := by simpa using h
        left; rfl
    | names l =>
        simp only [get_reference] at h
        rw [if_neg (by decide : ¬ ("ZQM" : String) ∉ (["QM", "ZQM"] : List String))] at h
        rw [if_pos trivial] at h
        exact absurd h (by simp)
    | name s =>
        simp only [get_reference] at h
        rw [if_neg (by decide : ¬ ("ZQM" : String) ∉ (["QM", "ZQM"] : List String))] at h
        by_cases hs : s ∈ (["head_office_number", "account_number"] : List String)
        · rw [if_neg (by simp [hs])] at h
          have hmem := (get_reference_select_ok_mem cc [s] sel h).1
          have hsel : sel.1 = s := by simpa using hmem
          rw [hsel]
          simpa [List.mem_cons, or_comm] using hs
        · rw [if_pos ⟨trivial, hs⟩] at h
          exact absurd h (by simp)
  · intro s hval hs
    subst hval
    simp only [get_reference]
    rw [if_neg (by decide : ¬ ("ZQM" : String) ∉ (["QM", "ZQM"] : List String))]
    rw [if_pos ⟨trivial, hs⟩]
  · intro l hval
    subst hval
    simp only [get_reference]
    rw [if_neg (by decide : ¬ ("ZQM" : String) ∉ (["QM", "ZQM"] : List String))]
    rw [if_pos trivial]

/-- Witness for C10: a static integer `reference_by` of a ZQM claim is
selected as reference `account_number`; a `reference_by` list raises
`ValueError`. -/
theorem C10_zqm_reference_account_witness :
    ("account_number" = "account_number" ∨ "account_number" = "head_office_number") ∧
    get_reference "ZQM" (.names ["invoice_number"]) [] =
      .error (.valueError "Invalid reference_by value for category quality!") :=
  ⟨(C10_zqm_reference_account (.staticAcc 4711) []).1 ("account_number", .int 4711) rfl,
   (C10_zqm_reference_account (.names ["invoice_number"]) []).2.2 ["invoice_number"] rfl⟩

end ClaimMgmt

namespace ClaimMgmt

theorem get_reference_qm_names (used : List String) (cc : Dict) :
    get_reference "QM" (.names used) cc = get_reference_select cc used := by
  simp [get_reference]

theorem collect_fst_eq_filter_map (cc : Dict) (used unused : List String)
    (l : List String) :
    (collect_valid_refs cc used unused l).1 =
      (l.filter (fun r => decide (r ∈ used) && (validVal cc r).isSome)).map
        (fun r => (r, (validVal cc r).getD PyVal.none)) := by
  rw [collect_valid_refs_fst]
  induction l with
  | nil => simp
  | cons r rest ih =>
      cases hv : validVal cc r with
      | none => simp [List.filterMap_cons, List.filter_cons, hv, ih]
      | some v =>
          by_cases hu : r ∈ used <;>
            simp [List.filterMap_cons, List.filter_cons, hv, hu, ih]

theorem collect_snd_eq_filter_map (cc : Dict) (used unused : List String)
    (l : List String) :
    (collect_valid_refs cc used unused l).2 =
      (l.filter (fun r =>
          !decide (r ∈ used) && decide (r ∈ unused) && (validVal cc r).isSome)).map
        (fun r => (r, (validVal cc r).getD PyVal.none)) := by
  rw [collect_valid_refs_snd]
  induction l with
  | nil => simp
  | cons r rest ih =>
      cases hv : validVal cc r with
      | none => simp [List.filterMap_cons, List.filter_cons, hv, ih]
      | some v =>
          by_cases hu : r ∈ used
          · simp [List.filterMap_cons, List.filter_cons, hv, hu, ih]
          · by_cases hn : r ∈ unused <;>
              simp [List.filterMap_cons, List.filter_cons, hv, hu, hn, ih]

theorem mem_all_refs_of (cc : Dict) (r : String)
    (hvalid : (validVal cc r).isSome) (havail : r ∈ available_refs) :
    r ∈ all_refs_of cc := by
  unfold all_refs_of
  exact List.mem_filter.2
    ⟨get?_isSome_mem_keys cc r (validVal_isSome_get? cc r hvalid), by simpa using havail⟩

theorem mem_unused_refs_of (cc : Dict) (used : List String) (r : String)
    (hvalid : (validVal cc r).isSome) (havail : r ∈ available_refs)
    (hnotused : r ∉ used) :
    r ∈ unused_refs_of cc used := by
  unfold unused_refs_of
  exact List.mem_filter.2 ⟨mem_all_refs_of cc r hvalid havail, by simpa using hnotused⟩

end ClaimMgmt

namespace ClaimMgmt

/-- C3 counterexample: the processing rule lists `delivery_number` before
`invoice_number`, and both candidates carry non-null values, yet
`Claim._get_reference` selects `invoice_number` — the selection follows the
fixed `available_refs` priority order, not the rule's listed order. -/
theorem C3_counterexample :
    get_reference "QM"
        (.names ["delivery_number", "invoice_number"])
        [("invoice_number", .int 9), ("delivery_number", .int 31)] =
      .ok ("invoice_number", .int 9) ∧
    Dict.get? [("invoice_number", .int 9), ("delivery_number", .int 31)]
        "delivery_number" = some (.int 31) ∧
    ("delivery_number" : String) ≠ "invoice_number" :=
  ⟨rfl, rfl, by decide⟩

/-- C3 (amended): for a QM claim whose rule lists candidate reference names,
`Claim._get_reference` selects the first candidate **in the compiler's fixed
priority order** `available_refs` = (invoice_number, delivery_number,
purchase_order_number, account_number, head_office_number) among the listed
candidates with a non-null value; when no listed candidate has a non-null
value it raises one error if another (unlisted) reference field holds a valid
value, and a different error when no reference field has a non-null value at
all. -/
theorem C3_reference_selection (used : List String) (cc : Dict)
    (hsub : ∀ r ∈ used, r ∈ available_refs) :
    (∀ r₀ t, available_refs.filter
          (fun r => decide (r ∈ used) && (validVal cc r).isSome) = r₀ :: t →
        ∃ v, validVal cc r₀ = some v ∧
          get_reference "QM" (.names used) cc = .ok (r₀, v)) ∧
    (available_refs.filter
          (fun r => decide (r ∈ used) && (validVal cc r).isSome) = [] →
      (∃ r ∈ available_refs, (validVal cc r).isSome) →
      get_reference "QM" (.names used) cc = .error (.runtimeError
        "Other references with valid values are available, but they aren't included in the reference_by parameter list.")) ∧
    ((∀ r ∈ available_refs, ¬ (validVal cc r).isSome = true) →
      get_reference "QM" (.names used) cc = .error (.runtimeWarning
        "No valid reference value found for notification creation.") ∨
      get_reference "QM" (.names used) cc = .error (.runtimeError
        "There aren't any other references with valid values that could be used to create the notification.")) := by
  have hinv : (used.filter (fun r => decide (r ∉ available_refs))).isEmpty = true := by
    rw [List.isEmpty_iff]
    rw [List.filter_eq_nil_iff]
    intro r hr
    simpa using hsub r hr
  refine ⟨?_, ?_, ?_⟩
  · intro r₀ t hfilter
    have hval : (validVal cc r₀).isSome := by
      have : r₀ ∈ available_refs.filter
          (fun r => decide (r ∈ used) && (validVal cc r).isSome) := by
        rw [hfilter]; exact List.mem_cons_self _ _
      exact (Bool.and_elim_right (List.mem_filter.1 this).2)
    have havail : r₀ ∈ available_refs := by
      have : r₀ ∈ available_refs.filter
          (fun r => decide (r ∈ used) && (validVal cc r).isSome) := by
        rw [hfilter]; exact List.mem_cons_self _ _
      exact (List.mem_filter.1 this).1
    obtain ⟨v, hv⟩ := Option.isSome_iff_exists.1 hval
    refine ⟨v, hv, ?_⟩
    rw [get_reference_qm_names]
    unfold get_reference_select
    rw [if_neg (by simp [hinv]; exact hsub)]
    rw [if_neg (by
      simp only [List.isEmpty_iff]
      intro hnil
      have := mem_all_refs_of cc r₀ hval havail
      rw [hnil] at this
      exact absurd this (List.not_mem_nil _))]
    have hfst : (collect_valid_refs cc used (unused_refs_of cc used) available_refs).1 =
        (r₀, v) :: t.map (fun r => (r, (validVal cc r).getD PyVal.none)) := by
      rw [collect_fst_eq_filter_map, hfilter]
      simp [hv]
    rw [if_neg (by simp [hfst])]
    rw [if_neg (by simp [hfst])]
    rw [hfst]
  · intro hnone ⟨r, havail, hval⟩
    have hnotused : r ∉ used := by
      intro hu
      have : r ∈ available_refs.filter
          (fun r => decide (r ∈ used) && (validVal cc r).isSome) :=
        List.mem_filter.2 ⟨havail, by simp [hu, hval]⟩
      rw [hnone] at this
      exact absurd this (List.not_mem_nil _)
    rw [get_reference_qm_names]
    unfold get_reference_select
    rw [if_neg (by simp [hinv]; exact hsub)]
    rw [if_neg (by
      simp only [List.isEmpty_iff]
      intro hnil
      have := mem_all_refs_of cc r hval havail
      rw [hnil] at this
      exact absurd this (List.not_mem_nil _))]
    rw [if_pos ?_]
    constructor
    · rw [collect_fst_eq_filter_map, hnone]
      simp
    · rw [collect_snd_eq_filter_map]
      simp only [List.isEmpty_iff, ne_eq]
      intro hnil
      rw [List.map_eq_nil_iff] at hnil
      have : r ∈ available_refs.filter (fun r' =>
          !decide (r' ∈ used) && decide (r' ∈ unused_refs_of cc used) &&
            (validVal cc r').isSome) :=
        List.mem_filter.2 ⟨havail, by
          simp [hnotused, hval, mem_unused_refs_of cc used r hval havail hnotused]⟩
      rw [hnil] at this
      exact absurd this (List.not_mem_nil _)
  · intro hnovalid
    rw [get_reference_qm_names]
    unfold get_reference_select
    rw [if_neg (by simp [hinv]; exact hsub)]
    by_cases hall : (all_refs_of cc).isEmpty = true
    · left; rw [if_pos hall]
    · right
      rw [if_neg hall]
      have hfst : (collect_valid_refs cc used (unused_refs_of cc used) available_refs).1 = [] := by
        rw [collect_fst_eq_filter_map]
        rw [List.filter_eq_nil_iff.2 (by
          intro r hr
          simp [hnovalid r hr])]
        simp
      have hsnd : (collect_valid_refs cc used (unused_refs_of cc used) available_refs).2 = [] := by
        rw [collect_snd_eq_filter_map]
        rw [List.filter_eq_nil_iff.2 (by
          intro r hr
          simp [hnovalid r hr])]
        simp
      rw [if_neg (by simp [hsnd])]
      rw [if_pos (by simp [hfst, hsnd])]

/-- Witness for C3: with `invoice_number` and `delivery_number` both valid and
both listed, the selection returns `invoice_number` (the head of the filtered
priority list). -/
theorem C3_reference_selection_witness :
    ∃ v, validVal [("invoice_number", PyVal.int 9), ("delivery_number", PyVal.int 31)]
        "invoice_number" = some v ∧
      get_reference "QM" (.names ["invoice_number", "delivery_number"])
        [("invoice_number", PyVal.int 9), ("delivery_number", PyVal.int 31)] =
        .ok ("invoice_number", v) :=
  (C3_reference_selection ["invoice_number", "delivery_number"]
      [("invoice_number", PyVal.int 9), ("delivery_number", PyVal.int 31)]
      (by decide)).1
    "invoice_number" ["delivery_number"] rfl

end ClaimMgmt

namespace ClaimMgmt

/-! ## Downloader deduplication

Model of the per-message document-history handling in
`Downloader._download_emails_data` (`app/svc_downloader/__init__.py`,
lines 267-346): the database is searched by the PDF's SHA-256 hash and the
resulting record list decides between creating a record, updating the
existing record, or rejecting the message.  Only the record fields this code
reads or writes are modelled. -/

/-- The document-record columns touched by the deduplication step. -/
@[ext]
structure DocRecord where
  message_id : String
  subfolder : String
  message_category : Option String
  control_category : Option String
  doc_status : String
  deriving Repr, DecidableEq

/-- Outcome of the deduplication step for one message. -/
inductive DedupOutcome where
  /-- `len(recs) == 0`: a brand-new record is inserted. -/
  | created (rec : DocRecord)
  /-- previously-processed document: message moved to the done folder, the
  saved PDF removed, `continue` — the document is not re-queued. -/
  | skipped (rec : DocRecord)
  /-- the record is reset to the registration state and the document proceeds
  to the extraction stage. -/
  | requeued (rec : DocRecord)
  /-- `len(recs) > 1`: hard error, nothing is created or updated. -/
  | duplicateError
  deriving Repr, DecidableEq

def registration_status : String := "document_registration_success"

/-- The update block shared by the re-queue paths: overwrite
`message_category` when it differs, reset `doc_status` to the registration
state, and overwrite `message_id` when it differs (the source also deletes
the old message, which has no record-level effect). -/
def apply_requeue_updates (rec : DocRecord) (msg_id : String)
    (categ : Option String) : DocRecord :=
  let rec1 := if rec.message_category ≠ categ then
      { rec with message_category := categ } else rec
  let rec2 := if rec1.doc_status ≠ registration_status then
      { rec1 with doc_status := registration_status } else rec1
  if rec2.message_id ≠ msg_id then { rec2 with message_id := msg_id } else rec2

/-- The deduplication step of `Downloader._download_emails_data` for one
downloaded PDF whose hash matched the records `recs`. -/
def download_dedup_step (recs : List DocRecord) (msg_id cust_folder : String)
    (categ control : Option String) : DedupOutcome :=
  match recs with
  | [] =>
      .created ⟨msg_id, cust_folder, categ, control, registration_status⟩
  | [rec] =>
      -- `db.update_record(table, rec_id, subfolder = cust_folder)`
      let rec1 := { rec with subfolder := cust_folder }
      if control = some "IGNORE_ALREADY_EXISTING" then
        .requeued (apply_requeue_updates
          { rec1 with control_category := control } msg_id categ)
      else if rec.doc_status ∈ (["completed", "done", "duplicate"] : List String) then
        .skipped rec1
      else
        .requeued (apply_requeue_updates rec1 msg_id categ)
  | _ => .duplicateError

theorem apply_requeue_updates_fields (rec : DocRecord) (msg_id : String)
    (categ : Option String) :
    (apply_requeue_updates rec msg_id categ).message_id = msg_id ∧
    (apply_requeue_updates rec msg_id categ).doc_status = registration_status ∧
    (apply_requeue_updates rec msg_id categ).message_category = categ ∧
    (apply_requeue_updates rec msg_id categ).subfolder = rec.subfolder ∧
    (apply_requeue_updates rec msg_id categ).control_category = rec.control_category := by
  obtain ⟨mid, sf, mc, ctc, st⟩ := rec
  unfold apply_requeue_updates
  split_ifs <;> simp_all

end ClaimMgmt

namespace ClaimMgmt

/-- C2 counterexample: the second pass over a document whose stored status is
`completed` (no control category applied) updates the subfolder but leaves
the stored `message_id` unchanged — the skip branch `continue`s before the
`message_id` update runs, contradicting the claim that the second pass
updates the existing record's message_id. -/
theorem C2_counterexample :
    download_dedup_step
        [⟨"old-msg", "folderA", some "PENALTY", Option.none, "completed"⟩]
        "new-msg" "folderB" (some "PENALTY") Option.none =
      .skipped ⟨"old-msg", "folderB", some "PENALTY", Option.none, "completed"⟩ ∧
    ("old-msg" : String) ≠ "new-msg" :=
  ⟨rfl, by decide⟩

/-- C2 (amended): re-processing a PDF whose hash already has a record never
inserts a second record and always updates the record's subfolder.  When the
`IGNORE_ALREADY_EXISTING` control category is applied the document is
re-queued (registration status, fresh message id and category) regardless of
its stored status; otherwise a stored status in {completed, done, duplicate}
skips the document — no re-queue, hence no new ERP case, with the stored
`message_id` left unchanged — and any other stored status re-queues it with
`message_id`, category and status updated. -/
theorem C2_dedup_second_pass (rec : DocRecord) (msg_id cust_folder : String)
    (categ control : Option String) :
    (∀ r', download_dedup_step [rec] msg_id cust_folder categ control ≠ .created r') ∧
    (control = some "IGNORE_ALREADY_EXISTING" →
      download_dedup_step [rec] msg_id cust_folder categ control =
        .requeued ⟨msg_id, cust_folder, categ, control, registration_status⟩) ∧
    (control ≠ some "IGNORE_ALREADY_EXISTING" →
      rec.doc_status ∈ (["completed", "done", "duplicate"] : List String) →
      download_dedup_step [rec] msg_id cust_folder categ control =
        .skipped { rec with subfolder := cust_folder }) ∧
    (control ≠ some "IGNORE_ALREADY_EXISTING" →
      rec.doc_status ∉ (["completed", "done", "duplicate"] : List String) →
      download_dedup_step [rec] msg_id cust_folder categ control =
        .requeued ⟨msg_id, cust_folder, categ, rec.control_category,
          registration_status⟩) := by
  refine ⟨?_, ?_, ?_, ?_⟩
  · intro r'
    by_cases h1 : control = some "IGNORE_ALREADY_EXISTING" <;>
      by_cases h2 : rec.doc_status ∈ (["completed", "done", "duplicate"] : List String) <;>
        simp [download_dedup_step, h1, h2]
  · intro hctrl
    simp only [download_dedup_step]
    rw [if_pos hctrl]
    have hf := apply_requeue_updates_fields
      { rec with subfolder := cust_folder, control_category := control } msg_id categ
    congr 1
    obtain ⟨h1, h2, h3, h4, h5⟩ := hf
    apply DocRecord.ext <;> simp_all
  · intro hctrl hst
    simp only [download_dedup_step]
    rw [if_neg hctrl, if_pos hst]
  · intro hctrl hst
    simp only [download_dedup_step]
    rw [if_neg hctrl, if_neg hst]
    have hf := apply_requeue_updates_fields
      { rec with subfolder := cust_folder } msg_id categ
    congr 1
    obtain ⟨h1, h2, h3, h4, h5⟩ := hf
    apply DocRecord.ext <;> simp_all

/-- Witness for C2: a document with stored status `extracted` and no control
category is re-queued with fresh message id and the registration status. -/
theorem C2_dedup_second_pass_witness :
    download_dedup_step
        [⟨"old-msg", "folderA", Option.none, Option.none, "extracted"⟩]
        "new-msg" "folderB" (some "RETURN") Option.none =
      .requeued ⟨"new-msg", "folderB", some "RETURN", Option.none,
        registration_status⟩ :=
  (C2_dedup_second_pass ⟨"old-msg", "folderA", Option.none, Option.none, "extracted"⟩
      "new-msg" "folderB" (some "RETURN") Option.none).2.2.2
    (by decide) (by decide)

end ClaimMgmt

namespace ClaimMgmt

/-! ## Digit formatting infrastructure

Helpers shared by the model of `locale.currency` (German amount formatting in
`Claim.create_status_sales`) and by the decimal formatter of the
`parse_number` round-trip law. -/

/-- Numeric value of a digit character. -/
def charDigitVal (c : Char) : ℕ := c.toNat - '0'.toNat

/-- Little-endian digit characters of `n` (least significant first); the first
argument is fuel (use `n` itself). -/
def natToCharsLE : ℕ → ℕ → List Char
  | _, 0 => []
  | 0, _ + 1 => []
  | fuel + 1, n + 1 =>
      Nat.digitChar ((n + 1) % 10) :: natToCharsLE fuel ((n + 1) / 10)

/-- Decimal digit characters of `n`, most significant first (`str(n)` for a
non-negative integer). -/
def natToChars (n : ℕ) : List Char :=
  if n = 0 then ['0'] else (natToCharsLE n n).reverse

/-- Insert a thousands separator after every three characters of a
little-endian digit list. -/
def groupRev (sep : Char) : List Char → List Char
  | [] => []
  | [a] => [a]
  | [a, b] => [a, b]
  | [a, b, c] => [a, b, c]
  | a :: b :: c :: d :: rest => a :: b :: c :: sep :: groupRev sep (d :: rest)

/-- Digit grouping of `n` as printed (most significant first, `sep` between
3-digit groups from the right). -/
def groupedNat (sep : Char) (n : ℕ) : List Char :=
  (groupRev sep (natToChars n).reverse).reverse

theorem digitChar_isDigit (m : ℕ) (h : m < 10) : (Nat.digitChar m).isDigit := by
  interval_cases m <;> decide

theorem charDigitVal_digitChar (m : ℕ) (h : m < 10) :
    charDigitVal (Nat.digitChar m) = m := by
  interval_cases m <;> decide

theorem digitChar_ne (m : ℕ) (h : m < 10) (c : Char) (hc : c.isDigit = false) :
    Nat.digitChar m ≠ c := by
  intro he
  rw [← he] at hc
  exact absurd (digitChar_isDigit m h) (by simp [hc])

theorem natToCharsLE_digits (fuel n : ℕ) :
    ∀ c ∈ natToCharsLE fuel n, c.isDigit := by
  induction fuel generalizing n with
  | zero => cases n <;> simp [natToCharsLE]
  | succ fuel ih =>
      cases n with
      | zero => simp [natToCharsLE]
      | succ m =>
          simp only [natToCharsLE, List.mem_cons]
          rintro c (rfl | hc)
          · exact digitChar_isDigit _ (Nat.mod_lt _ (by norm_num))
          · exact ih _ c hc

theorem natToChars_digits (n : ℕ) : ∀ c ∈ natToChars n, c.isDigit := by
  unfold natToChars
  split
  · simp
  · intro c hc
    exact natToCharsLE_digits n n c (List.mem_reverse.1 hc)

theorem natToChars_ne_nil (n : ℕ) : natToChars n ≠ [] := by
  unfold natToChars
  split
  · simp
  · rename_i h
    cases n with
    | zero => exact absurd rfl h
    | succ m => simp [natToCharsLE]

/-- Little-endian evaluation matching `natOfDigitChars` on the reverse. -/
def valLE (cs : List Char) : ℕ :=
  cs.foldr (fun c a => a * 10 + charDigitVal c) 0

theorem natOfDigitChars_reverse (cs : List Char) :
    natOfDigitChars cs.reverse = valLE cs := by
  unfold natOfDigitChars valLE
  rw [List.foldl_reverse]
  rfl

theorem valLE_natToCharsLE (fuel : ℕ) :
    ∀ n, n ≤ fuel → valLE (natToCharsLE fuel n) = n := by
  induction fuel with
  | zero =>
      intro n hn
      interval_cases n
      simp [natToCharsLE, valLE]
  | succ fuel ih =>
      intro n hn
      cases n with
      | zero => simp [natToCharsLE, valLE]
      | succ m =>
          have hdiv : (m + 1) / 10 ≤ fuel := by
            have h1 : (m + 1) / 10 < m + 1 := Nat.div_lt_self (Nat.succ_pos m) (by norm_num)
            omega
          simp only [natToCharsLE, valLE, List.foldr_cons]
          have hrec : valLE (natToCharsLE fuel ((m + 1) / 10)) = (m + 1) / 10 := ih _ hdiv
          unfold valLE at hrec
          rw [hrec, charDigitVal_digitChar _ (Nat.mod_lt _ (by norm_num))]
          omega

theorem natOfDigitChars_natToChars (n : ℕ) :
    natOfDigitChars (natToChars n) = n := by
  unfold natToChars
  split
  · rename_i h; subst h; decide
  · rw [natOfDigitChars_reverse, valLE_natToCharsLE n n le_rfl]

end ClaimMgmt

namespace ClaimMgmt

theorem foldl_digits_init (a : ℕ) (ys : List Char) :
    List.foldl (fun a c => a * 10 + (c.toNat - '0'.toNat)) a ys =
      a * 10 ^ ys.length +
        List.foldl (fun a c => a * 10 + (c.toNat - '0'.toNat)) 0 ys := by
  induction ys generalizing a with
  | nil => simp
  | cons c rest ih =>
      simp only [List.foldl_cons, List.length_cons]
      rw [ih (a * 10 + (c.toNat - '0'.toNat)), ih (0 * 10 + (c.toNat - '0'.toNat))]
      ring

theorem natOfDigitChars_append (xs ys : List Char) :
    natOfDigitChars (xs ++ ys) =
      natOfDigitChars xs * 10 ^ ys.length + natOfDigitChars ys := by
  unfold natOfDigitChars
  rw [List.foldl_append]
  exact foldl_digits_init _ ys

theorem groupRev_mem (sep : Char) :
    ∀ l : List Char, ∀ c ∈ groupRev sep l, c ∈ l ∨ c = sep := by
  intro l
  induction l using groupRev.induct sep with
  | case1 => simp [groupRev]
  | case2 a => simp [groupRev]
  | case3 a b => intro c; simp [groupRev]; tauto
  | case4 a b c => intro x; simp [groupRev]; tauto
  | case5 a b c d rest ih =>
      intro x hx
      simp only [groupRev, List.mem_cons] at hx
      rcases hx with rfl | rfl | rfl | rfl | hx
      · simp
      · simp
      · simp
      · right; rfl
      · rcases ih x hx with h | h
        · left; simp only [List.mem_cons] at h ⊢; tauto
        · right; exact h

theorem groupRev_filter (sep : Char) (p : Char → Bool) (hsep : p sep = false) :
    ∀ l : List Char, (∀ c ∈ l, p c = true) →
      (groupRev sep l).filter p = l := by
  intro l
  induction l using groupRev.induct sep with
  | case1 => simp [groupRev]
  | case2 a => intro hall; simp [groupRev, List.filter_cons, hall a (by simp)]
  | case3 a b =>
      intro hall
      simp [groupRev, List.filter_cons, hall a (by simp), hall b (by simp)]
  | case4 a b c =>
      intro hall
      simp [groupRev, List.filter_cons, hall a (by simp), hall b (by simp),
        hall c (by simp)]
  | case5 a b c d rest ih =>
      intro hall
      simp only [groupRev, List.filter_cons]
      rw [hall a (by simp), hall b (by simp), hall c (by simp), hsep]
      simp only [Bool.false_eq_true, if_false, if_true]
      rw [ih (fun x hx => hall x (by simp only [List.mem_cons] at hx ⊢; tauto))]

theorem groupRev_eq_self_of_short (sep : Char) (l : List Char)
    (h : l.length ≤ 3) : groupRev sep l = l := by
  match l with
  | [] => rfl
  | [a] => rfl
  | [a, b] => rfl
  | [a, b, c] => rfl
  | a :: b :: c :: d :: rest => simp at h

end ClaimMgmt

namespace ClaimMgmt

/-! ## String helpers (Python `in`, `str.replace`, `str.strip`) -/

/-- Python `pat in s` on character lists. -/
def containsSub (pat : List Char) : List Char → Bool
  | [] => pat.isEmpty
  | c :: rest => pat.isPrefixOf (c :: rest) || containsSub pat rest

/-- Python `s.replace(pat, repl)` on character lists, with fuel (use the
length of the string; every step consumes at least one character when `pat`
is non-empty). -/
def replaceSubAux (pat repl : List Char) : ℕ → List Char → List Char
  | _, [] => []
  | 0, l => l
  | fuel + 1, c :: rest =>
      if pat.isPrefixOf (c :: rest) then
        repl ++ replaceSubAux pat repl fuel ((c :: rest).drop pat.length)
      else c :: replaceSubAux pat repl fuel rest

/-- Python `s.replace(pat, repl)` (for the non-empty patterns used by the
rule templating; an empty pattern returns the string unchanged). -/
def pyReplace (s pat repl : String) : String :=
  if pat.data.isEmpty then s
  else ⟨replaceSubAux pat.data repl.data s.data.length s.data⟩

/-- Python `s.strip()`: remove leading and trailing whitespace. -/
def pyStrip (s : String) : String :=
  ⟨((s.data.dropWhile Char.isWhitespace).reverse.dropWhile Char.isWhitespace).reverse⟩

/-- Python `pat in s`. -/
def pyContains (s pat : String) : Bool :=
  containsSub pat.data s.data

/-! ## German amount formatting and the credit-note protocol

`Claim.create_status_sales` (`app/svc_creator/compiler.py`, lines 220-245)
formats the document amount with `locale.currency(amount, grouping = True,
symbol = False)` under `de_DE` — thousands separator `.`, decimal comma, two
decimals — and joins it into the previous Status-Sales text.
`ClaimManager._record_creditnote` (`app/svc_creator/__init__.py`, lines
625-693) computes the new case attributes and calls
`dms.modify_case_params` before `dms.attach`. -/

/-- Round to the nearest integer, ties to even (the rounding used when a
float is formatted with two decimals). -/
def roundHalfEvenInt (q : ℚ) : ℤ :=
  if q - ⌊q⌋ < 1 / 2 then ⌊q⌋
  else if 1 / 2 < q - ⌊q⌋ then ⌊q⌋ + 1
  else if Even ⌊q⌋ then ⌊q⌋ else ⌊q⌋ + 1

/-- Model of `locale.currency(q, grouping = True, symbol = False)` under the
`de_DE` locale: `1.234,56`, leading sign. -/
def germanAmount (q : ℚ) : String :=
  let cents := roundHalfEvenInt (q * 100)
  let m := cents.natAbs
  (if cents < 0 then "-" else "") ++
    ⟨groupedNat '.' (m / 100)⟩ ++ "," ++
    ⟨[Nat.digitChar (m % 100 / 10), Nat.digitChar (m % 100 % 10)]⟩

/-- `Claim.create_status_sales`: require the `<amount>` placeholder, format
the amount, substitute, and join with the previous Status-Sales text. -/
def create_status_sales (status_sales gen_rule : String) (amount : ℚ) :
    Except PyErr String :=
  if ¬ pyContains gen_rule "<amount>" then
    .error (.valueError "Placeholder <amount> not found in the formatting rule!")
  else
    .ok (pyStrip (status_sales ++ " " ++
      pyReplace gen_rule "<amount>" (germanAmount amount)))

/-- `Claim.create_attachment_name`. -/
def create_attachment_name (att_rule : String) (case_id : ℤ) :
    Except PyErr String :=
  if ¬ pyContains att_rule "<case_id>" then
    .error (.valueError "Placeholder <case_id> not found in the formatting rule!")
  else
    .ok (pyReplace att_rule "<case_id>" (toString case_id))

/-- The DMS case attributes read by `_record_creditnote`
(`dms.get_case_parameters(case_guid)`). -/
structure CaseParams where
  case_id : ℤ
  root_cause_code : String
  status : ℤ
  status_sales : String
  disputed_amount : String
  deriving Repr, DecidableEq

/-- The `claim.case["update"]` ruleset fields used by `_record_creditnote`. -/
structure CaseUpdateRule where
  amount : ℚ
  status_sales : String
  attachment_name : String
  coordinator : String
  processor : String
  responsible : Option String
  deriving Repr, DecidableEq

/-- The keyword arguments passed to `dms.modify_case_params`. -/
structure ModifyParams where
  processor : String
  coordinator : String
  responsible : Option String
  root_cause_code : Option String
  status_sales : String
  status : Option ℤ
  reason : String
  deriving Repr, DecidableEq

/-- The DMS operations `_record_creditnote` performs, in order. -/
inductive DmsOp where
  | modifyCaseParams (p : ModifyParams)
  | attach (attachment_name : String)
  deriving Repr, DecidableEq

/-- Numeric value of a parsed Python number. -/
def pyToQ (v : PyVal) : Except PyErr ℚ :=
  match v with
  | .int n => .ok (n : ℚ)
  | .float q => .ok q
  | _ => .error (.typeError "not a number")

/-- `disp_amount = PrimitiveParser().parse_number(case_params["disputed_amount"])`. -/
def parse_disputed (cp : CaseParams) : Except PyErr ℚ := do
  let v ← parse_number (.str cp.disputed_amount) .infer .raise
  pyToQ v

/-- `ClaimManager._record_creditnote`: compute the new Status-Sales text, the
root-cause decision, the status decision, and perform `modify_case_params`
followed by `attach` (attaching deliberately comes last, see the source
comment at lines 680-681). -/
def record_creditnote (threshold : ℚ) (upd : CaseUpdateRule)
    (cp : CaseParams) : Except PyErr (ℤ × List DmsOp) :=
  match parse_disputed cp with
  | .error e => .error e
  | .ok disp =>
    match create_status_sales cp.status_sales upd.status_sales upd.amount with
    | .error e => .error e
    | .ok new_stat_sl =>
      match create_attachment_name upd.attachment_name cp.case_id with
      | .error e => .error e
      | .ok att_name =>
          .ok (cp.case_id,
            [ .modifyCaseParams
                ⟨upd.processor, upd.coordinator, upd.responsible,
                  (if disp > threshold ∧
                      cp.root_cause_code ∉ (["L01", "L06"] : List String) then
                    some "L01"
                  else Option.none),
                  new_stat_sl,
                  (if disp - upd.amount < threshold ∧ cp.status = 1 then
                    some 2
                  else Option.none),
                  "XXX"⟩,
              .attach att_name ])

end ClaimMgmt

namespace ClaimMgmt

/-- C4: for every credit note recorded against an existing DMS case, the
parameters passed to `modify_case_params` satisfy: root cause is set to `L01`
iff the currently-disputed amount exceeds the threshold and the existing root
cause is outside {L01, L06}; a status transition (to 2) is requested iff
`(disputed − credit) < threshold` and the current status is 1; the reason is
`XXX`; the new Status-Sales text is the old text extended with the formatting
rule instantiated with the German-formatted credit amount; and the PDF
attachment is the last operation, after the attribute update. -/
theorem C4_record_creditnote (threshold : ℚ) (upd : CaseUpdateRule)
    (cp : CaseParams) (case_id : ℤ) (ops : List DmsOp) (disp : ℚ)
    (hdisp : parse_disputed cp = .ok disp)
    (h : record_creditnote threshold upd cp = .ok (case_id, ops)) :
    ∃ p att, ops = [.modifyCaseParams p, .attach att] ∧
      (p.root_cause_code = some "L01" ↔
        disp > threshold ∧ cp.root_cause_code ∉ (["L01", "L06"] : List String)) ∧
      (p.status = some 2 ↔ disp - upd.amount < threshold ∧ cp.status = 1) ∧
      (p.status = some 2 ∨ p.status = Option.none) ∧
      p.reason = "XXX" ∧
      p.status_sales = pyStrip (cp.status_sales ++ " " ++
        pyReplace upd.status_sales "<amount>" (germanAmount upd.amount)) ∧
      pyContains upd.status_sales "<amount>" = true := by
  unfold record_creditnote at h
  split at h
  · exact absurd h (by simp)
  · rename_i d heq
    rw [hdisp] at heq
    have hd : d = disp := by simpa using heq.symm
    rw [hd] at h
    split at h
    · exact absurd h (by simp)
    · rename_i stat_sl hss
      split at h
      · exact absurd h (by simp)
      · rename_i att hatt
        simp only [Except.ok.injEq, Prod.mk.injEq] at h
        obtain ⟨-, rfl⟩ := h
        unfold create_status_sales at hss
        by_cases hc : pyContains upd.status_sales "<amount>" = true
        · rw [if_neg (by simp [hc])] at hss
          refine ⟨_, att, rfl, ?_, ?_, ?_, rfl, ?_, hc⟩
          · constructor
            · intro hrc
              by_cases hcond : disp > threshold ∧
                  cp.root_cause_code ∉ (["L01", "L06"] : List String)
              · exact hcond
              · simp only [if_neg hcond] at hrc
                exact absurd hrc (by simp)
            · intro hcond; simp [hcond]
          · constructor
            · intro hst
              by_cases hcond : disp - upd.amount < threshold ∧ cp.status = 1
              · exact hcond
              · simp only [if_neg hcond] at hst
                exact absurd hst (by simp)
            · intro hcond; simp [hcond]
          · by_cases hcond : disp - upd.amount < threshold ∧ cp.status = 1
            · left; simp [hcond]
            · right; simp [hcond]
          · simpa using hss.symm
        · rw [if_pos (by simp [hc])] at hss
          exact absurd hss (by simp)

/-- Witness for C4 at concrete inputs: disputed 1500, credit 1500, threshold
500, current status 1, empty root cause — root cause set to `L01`, status
transition to 2 requested, reason `XXX`, Status-Sales becomes
`old 1.500,00 received`, attachment last. -/
theorem C4_record_creditnote_witness :
    ∃ p att,
      ([DmsOp.modifyCaseParams ⟨"PROC", "COORD", Option.none, some "L01",
          "old 1.500,00 received", some 2, "XXX"⟩,
        DmsOp.attach "case 77.pdf"] : List DmsOp) =
          [DmsOp.modifyCaseParams p, DmsOp.attach att] ∧
      (p.root_cause_code = some "L01" ↔
        (1500 : ℚ) > 500 ∧ ("" : String) ∉ (["L01", "L06"] : List String)) ∧
      (p.status = some 2 ↔ (1500 : ℚ) - 1500 < 500 ∧ (1 : ℤ) = 1) ∧
      (p.status = some 2 ∨ p.status = Option.none) ∧
      p.reason = "XXX" ∧
      p.status_sales = pyStrip (("old" : String) ++ " " ++
        pyReplace "<amount> received" "<amount>" (germanAmount 1500)) ∧
      pyContains "<amount> received" "<amount>" = true :=
  C4_record_creditnote 500
    ⟨1500, "<amount> received", "case <case_id>.pdf", "COORD", "PROC", Option.none⟩
    ⟨77, "", 1, "old", "1.500,00"⟩ 77
    [DmsOp.modifyCaseParams ⟨"PROC", "COORD", Option.none, some "L01",
        "old 1.500,00 received", some 2, "XXX"⟩,
      DmsOp.attach "case 77.pdf"]
    1500 (by with_unfolding_all rfl) (by with_unfolding_all rfl)

end ClaimMgmt

namespace ClaimMgmt

/-! ## Accounting-document resolution

Model of `va03.find_accounting_documents` / `va03._get_accounting_docs`
(`app/storage/sap/va03.py`) and of the purchase-order branch of
`Claim._get_accounting_docs` (`app/svc_creator/compiler.py`, lines 387-427).
The `RFC_READ_TABLE` calls are modelled by an oracle. -/

/-- One accounting-document record assembled by `va03._get_accounting_docs`. -/
structure AccDoc where
  sales_document : ℤ
  invoice : ℤ
  delivery : ℤ
  account : ℤ
  deriving Repr, DecidableEq

/-- Oracle for the `RFC_READ_TABLE` queries issued by `va03`:
`salesDocs po acc` is the deduplicated `VBAK` result for the purchase order
(with optional `KUNNR` filter), `invoiceOf`/`deliveryOf` are the first `VBFA`
rows of type `M`/`J` for a sales document, `accountOf` the `KUNNR` of the
sales document. -/
structure Va03Oracle where
  salesDocs : String → Option ℤ → List String
  invoiceOf : String → Option String
  deliveryOf : String → Option String
  accountOf : String → String

/-- Python `int(s)` on a string. -/
def pyIntOfString (s : String) : Except PyErr ℤ :=
  match s.toInt? with
  | some n => .ok n
  | Option.none => .error (.valueError "invalid literal for int()")

/-- `va03._get_accounting_docs`: for each sales document look up invoice,
delivery and account.  A sales document with neither invoice nor delivery
raises `DocumentsNotFoundWarning`; with exactly one of them missing, the
`int(None)` conversion at lines 94-95 raises `TypeError`. -/
def va03_get_accounting_docs (o : Va03Oracle) :
    List String → Except PyErr (List AccDoc)
  | [] => .ok []
  | sd :: rest =>
      match o.invoiceOf sd, o.deliveryOf sd with
      | Option.none, Option.none =>
          .error (.documentsNotFoundWarning
            "Neither a debit note nor an invoice was found.")
      | some inv, some del => do
          let sdn ← pyIntOfString sd
          let invn ← pyIntOfString inv
          let deln ← pyIntOfString del
          let accn ← pyIntOfString (o.accountOf sd)
          let rest' ← va03_get_accounting_docs o rest
          .ok (⟨sdn, invn, deln, accn⟩ :: rest')
      | _, _ =>
          .error (.typeError "int() argument cannot be NoneType")

/-- `va03.find_accounting_documents` for a `PurchaseOrder` reference.  With an
account filter and no sales document, `DocumentNotFoundError` is raised; with
NO account filter and no sales document the function falls through to the
final `assert len(records) != 0`, which fails (`AssertionError`), because the
`if len(sales_docs) == 0` ladder has no branch for a purchase order without
an account filter. -/
def find_accounting_documents_po (o : Va03Oracle) (po : String)
    (acc : Option ℤ) : Except PyErr (List AccDoc) :=
  let sales_docs := (o.salesDocs po acc).eraseDups  -- `list(set(...))`
  if sales_docs.isEmpty then
    if acc.isSome then
      .error (.documentNotFoundError
        "No accounting document found since no sales document exists for the purchase order.")
    else
      .error (.assertionError "No accounting document was found!")
  else
    va03_get_accounting_docs o sales_docs

/-- String conversion `str(po_num)` for the values a purchase-order number
takes in the pipeline. -/
def pyStr : PyVal → String
  | .none => "None"
  | .int n => toString n
  | .float q => toString q
  | .str s => s
  | .list _ => "[...]"

/-- The purchase-order branch of `Claim._get_accounting_docs` (`elif inv_num
is None and deliv_num is None`, lines 387-427).  `reference_from` is the
`claim_create` rule entry; `has_po_in_data` models
`"purchase_order_number" in data`.  The local variable `acc_docs` is bound
only when `va03.find_accounting_documents` returns normally; when the call
raised a caught warning/error, evaluating `len(acc_docs)` at line 421 raises
`UnboundLocalError` — which is only reached when `acc is None`, because
`acc is None and len(acc_docs) > 1` short-circuits. -/
def compiler_get_accounting_docs_po (o : Va03Oracle) (po_num : PyVal)
    (reference_from : Option String) (has_po_in_data : Bool)
    (acc : Option ℤ) :
    Except PyErr (Option (List ℤ) × Option (List ℤ)) :=
  match reference_from with
  | Option.none => .ok (Option.none, Option.none)   -- warning logged; proceed without documents
  | some ref =>
    if ref ≠ "purchase_order_number" then
      .error (.valueError "Unrecognized reference_from value!")
    else
      -- `if isinstance(po_num, list) and len(po_num) > 1: po_num = po_num[0]`
      let po_num1 := match po_num with
        | .list (x :: _ :: _) => x
        | v => v
      if ¬ has_po_in_data then
        .error (.assertionError
          "Purchase order number is required to create a notification, but not found in the document data!")
      else
        let search := find_accounting_documents_po o (pyStr po_num1) acc
        -- caught: DocumentsNotFoundWarning, DocumentNotFoundError
        let acc_docs : Option (List AccDoc) :=
          match search with
          | .ok docs => some docs
          | .error _ => Option.none
        match search with
        | .error (.documentsNotFoundWarning _) | .error (.documentNotFoundError _) | .ok _ =>
          let inv_nums : Option (List ℤ) :=
            match search with
            | .ok docs => some (docs.map AccDoc.invoice).eraseDups
            | _ => Option.none
          let deliv_nums : Option (List ℤ) :=
            match search with
            | .ok docs => some (docs.map AccDoc.delivery).eraseDups
            | _ => Option.none
          if acc.isNone then
            match acc_docs with
            | Option.none => .error (.unboundLocalError "acc_docs")
            | some docs =>
                if docs.length > 1 then
                  .error (.runtimeError
                    "Multiple records found without using customer account as a filter!")
                else .ok (inv_nums, deliv_nums)
          else .ok (inv_nums, deliv_nums)
        | .error e => .error e   -- any other exception propagates

end ClaimMgmt

namespace ClaimMgmt

/-- An ERP state with one sales document for the purchase order, but neither
an invoice nor a delivery attached to it (backbilling / own-consumption):
`va03` raises `DocumentsNotFoundWarning`. -/
def c6OracleNotFound : Va03Oracle :=
  ⟨fun _ _ => ["0200000001"], fun _ => Option.none, fun _ => Option.none,
   fun _ => "0000012345"⟩

/-- An ERP state with two sales documents for the purchase order. -/
def c6OracleMulti : Va03Oracle :=
  ⟨fun _ _ => ["0200000001", "0200000002"],
   fun _ => some "0109876543", fun _ => some "0319000001",
   fun _ => "0000012345"⟩

/-- C6: the spec says a "documents not found" search result is tolerated
(warning logged, compilation proceeds without invoice/delivery numbers), and
the source catches the warning and logs it — but when no customer-account
filter was used, the `if acc is None and len(acc_docs) > 1` check then reads
the local `acc_docs`, which was never assigned because the search raised, so
the tolerated path crashes with `UnboundLocalError`.  With an account filter
the warning is tolerated exactly as specified, and the multiple-sales-
documents case without a filter fails hard as specified. -/
theorem C6_unbound_local_on_tolerated_warning :
    compiler_get_accounting_docs_po c6OracleNotFound (.int 12345)
        (some "purchase_order_number") true Option.none =
      .error (.unboundLocalError "acc_docs") ∧
    compiler_get_accounting_docs_po c6OracleNotFound (.int 12345)
        (some "purchase_order_number") true (some 77) =
      .ok (Option.none, Option.none) ∧
    compiler_get_accounting_docs_po c6OracleMulti (.int 12345)
        (some "purchase_order_number") true Option.none =
      .error (.runtimeError
        "Multiple records found without using customer account as a filter!") ∧
    compiler_get_accounting_docs_po c6OracleMulti (.int 12345)
        (some "purchase_order_number") true (some 77) =
      .ok (some [109876543], some [319000001]) :=
  ⟨rfl, rfl, by with_unfolding_all rfl, by with_unfolding_all rfl⟩

end ClaimMgmt

namespace ClaimMgmt

/-! ## The number-parsing round trip

The round-trip law quantifies over decimal numbers and the textual shapes in
which documents print them (thousand separator ∈ {`.`, `,`, ` `}, decimal
separator the complementary character, trailing `-` sign, as in the
`parse_number` docstring examples).  `Decimal`/`formatNumber` construct those
shapes; `parse_number` above is the parser from the source. -/

/-- A decimal number: sign, integer part, and explicit fractional digits
(most significant first). -/
structure Decimal where
  neg : Bool
  units : ℕ
  frac : List ℕ
  deriving Repr, DecidableEq

/-- All fractional digits are in fact digits. -/
def Decimal.fracOk (d : Decimal) : Prop := ∀ x ∈ d.frac, x < 10

/-- The rational value of the decimal. -/
def Decimal.value (d : Decimal) : ℚ :=
  (if d.neg then -1 else 1) *
    ((d.units : ℚ) +
      (natOfDigitChars (d.frac.map Nat.digitChar) : ℚ) / 10 ^ d.frac.length)

/-- Decimal separator complementing a thousand-separator style. -/
def decSepFor (sep : Char) : Char := if sep = ',' then '.' else ','

/-- Format a decimal with the given thousand-separator style: grouped integer
part, decimal separator and fraction digits when there are any, trailing `-`
for negative numbers (the shape shown in the `parse_number` docstring). -/
def formatNumber (d : Decimal) (sep : Char) : String :=
  ⟨groupedNat sep d.units ++
    (if d.frac.isEmpty then [] else
      decSepFor sep :: d.frac.map Nat.digitChar) ++
    (if d.neg then ['-'] else [])⟩

theorem dropWhile_append_eq {p : Char → Bool} {l₁ l₂ : List Char}
    (h1 : l₁ ≠ []) (h : ∀ c ∈ l₁, p c = false) :
    (l₁ ++ l₂).dropWhile p = l₁ ++ l₂ := by
  cases l₁ with
  | nil => cases h1 rfl
  | cons c t => simp [List.dropWhile_cons, h c (by simp)]

theorem takeWhile_append_eq {p : Char → Bool} {l₁ l₂ : List Char} {y : Char}
    (h1 : ∀ c ∈ l₁, p c = true) (hy : p y = false) :
    (l₁ ++ y :: l₂).takeWhile p = l₁ := by
  induction l₁ with
  | nil => simp [List.takeWhile_cons, hy]
  | cons c t ih =>
      simp only [List.cons_append, List.takeWhile_cons, h1 c (by simp), if_true]
      rw [ih (fun x hx => h1 x (by simp [hx]))]

theorem filter_eq_self_of_forall {p : Char → Bool} {l : List Char}
    (h : ∀ c ∈ l, p c = true) : l.filter p = l :=
  List.filter_eq_self.2 h

theorem filter_eq_nil_of_forall {p : Char → Bool} {l : List Char}
    (h : ∀ c ∈ l, p c = false) : l.filter p = [] := by
  rw [List.filter_eq_nil_iff]
  intro a ha
  simp [h a ha]

end ClaimMgmt

namespace ClaimMgmt

theorem dropWhile_eq_self_of_forall {p : Char → Bool} {l : List Char}
    (h : ∀ c ∈ l, p c = false) : l.dropWhile p = l := by
  cases l with
  | nil => rfl
  | cons c t => simp [List.dropWhile_cons, h c (by simp)]

theorem groupRev_ne_nil (sep : Char) (l : List Char) (h : l ≠ []) :
    groupRev sep l ≠ [] := by
  match l with
  | [] => exact absurd rfl h
  | [a] => simp [groupRev]
  | [a, b] => simp [groupRev]
  | [a, b, c] => simp [groupRev]
  | a :: b :: c :: d :: rest => simp [groupRev]

theorem groupedNat_mem (sep : Char) (n : ℕ) :
    ∀ c ∈ groupedNat sep n, c.isDigit ∨ c = sep := by
  intro c hc
  unfold groupedNat at hc
  rw [List.mem_reverse] at hc
  rcases groupRev_mem sep _ c hc with h | h
  · left
    exact natToChars_digits n c (List.mem_reverse.1 h)
  · right; exact h

theorem groupedNat_ne_nil (sep : Char) (n : ℕ) : groupedNat sep n ≠ [] := by
  unfold groupedNat
  intro h
  rw [List.reverse_eq_nil_iff] at h
  exact groupRev_ne_nil sep _ (by
    intro h'
    rw [List.reverse_eq_nil_iff] at h'
    exact natToChars_ne_nil n h') h

theorem groupedNat_filter (sep : Char) (n : ℕ) (p : Char → Bool)
    (hsep : p sep = false) (hdig : ∀ c, c.isDigit = true → p c = true) :
    (groupedNat sep n).filter p = natToChars n := by
  unfold groupedNat
  rw [List.filter_reverse]
  rw [groupRev_filter sep p hsep _ (fun c hc =>
    hdig c (natToChars_digits n c (List.mem_reverse.1 hc)))]
  simp

theorem groupedNat_filter_self (sep : Char) (n : ℕ) (p : Char → Bool)
    (hsep : p sep = true) (hdig : ∀ c, c.isDigit = true → p c = true) :
    (groupedNat sep n).filter p = groupedNat sep n := by
  refine filter_eq_self_of_forall (fun c hc => ?_)
  rcases groupedNat_mem sep n c hc with h | h
  · exact hdig c h
  · rw [h]; exact hsep

theorem stripDashes_shape (A mid : List Char) (neg : Bool)
    (hA : A ≠ []) (hAn : ∀ c ∈ A, c ≠ '-') (hmidn : ∀ c ∈ mid, c ≠ '-') :
    stripDashes (A ++ mid ++ (if neg then ['-'] else [])) = A ++ mid := by
  unfold stripDashes
  have hfront : (A ++ (mid ++ (if neg then ['-'] else []))).dropWhile
      (fun c => decide (c = '-')) = A ++ (mid ++ (if neg then ['-'] else [])) := by
    refine dropWhile_append_eq hA (fun c hc => ?_)
    simp [hAn c hc]
  have hAM : ∀ c ∈ mid.reverse ++ A.reverse, (decide (c = '-')) = false := by
    intro c hc
    rcases List.mem_append.1 hc with h | h
    · simp [hmidn c (List.mem_reverse.1 h)]
    · simp [hAn c (List.mem_reverse.1 h)]
  rw [List.append_assoc, hfront]
  cases neg with
  | true =>
      have hrev : (A ++ (mid ++ (if true = true then ['-'] else []))).reverse =
          '-' :: (mid.reverse ++ A.reverse) := by
        simp
      rw [hrev, List.dropWhile_cons]
      simp only [show (decide ('-' = '-')) = true from rfl, if_true]
      rw [dropWhile_eq_self_of_forall hAM]
      simp
  | false =>
      have hrev : (A ++ (mid ++ (if false = true then ['-'] else []))).reverse =
          mid.reverse ++ A.reverse := by
        simp
      rw [hrev]
      rw [dropWhile_eq_self_of_forall hAM]
      simp

end ClaimMgmt

namespace ClaimMgmt

theorem mem_sep_cases {sep : Char} (hsep : sep ∈ (['.', ',', ' '] : List Char)) :
    sep = '.' ∨ sep = ',' ∨ sep = ' ' := by
  simpa using hsep

theorem decSepFor_cases (sep : Char) (hsep : sep ∈ (['.', ',', ' '] : List Char)) :
    decSepFor sep = '.' ∨ decSepFor sep = ',' := by
  rcases mem_sep_cases hsep with h | h | h <;> simp_all [decSepFor]

theorem digit_not_dash {c : Char} (h : c.isDigit = true) : c ≠ '-' := by
  intro he; subst he; simp at h

theorem digit_not_space {c : Char} (h : c.isDigit = true) : c ≠ ' ' := by
  intro he; subst he; simp at h

theorem digit_not_dot_comma {c : Char} (h : c.isDigit = true) :
    c ≠ '.' ∧ c ≠ ',' := by
  constructor <;> intro he <;> subst he <;> simp at h

theorem frac_digits (d : Decimal) (hok : d.fracOk) :
    ∀ c ∈ d.frac.map Nat.digitChar, c.isDigit = true := by
  intro c hc
  obtain ⟨x, hx, rfl⟩ := List.mem_map.1 hc
  exact digitChar_isDigit x (hok x hx)

theorem natToChars_length_le (k : ℕ) :
    ∀ fuel n, n ≤ fuel → n < 10 ^ k → (natToCharsLE fuel n).length ≤ k := by
  induction k with
  | zero =>
      intro fuel n hle hlt
      interval_cases n
      cases fuel <;> simp [natToCharsLE]
  | succ k ih =>
      intro fuel n hle hlt
      cases fuel with
      | zero =>
          interval_cases n
          simp [natToCharsLE]
      | succ fuel =>
          cases n with
          | zero => simp [natToCharsLE]
          | succ m =>
              simp only [natToCharsLE, List.length_cons]
              have hdiv : (m + 1) / 10 ≤ fuel := by
                have := Nat.div_lt_self (Nat.succ_pos m) (show 1 < 10 by norm_num)
                omega
              have hlt' : (m + 1) / 10 < 10 ^ k := by
                rw [Nat.div_lt_iff_lt_mul (by norm_num)]
                calc m + 1 < 10 ^ (k + 1) := hlt
                _ = 10 ^ k * 10 := by ring
              have := ih fuel ((m + 1) / 10) hdiv hlt'
              omega

theorem groupedNat_small (sep : Char) (n : ℕ) (h : n < 1000) :
    groupedNat sep n = natToChars n := by
  unfold groupedNat
  rw [groupRev_eq_self_of_short]
  · simp
  · unfold natToChars
    split
    · simp
    · have := natToChars_length_le 3 n n le_rfl (by simpa using h)
      simpa using this

theorem c9_A_eq (d : Decimal) (sep : Char)
    (hsep : sep ∈ (['.', ',', ' '] : List Char)) :
    (groupedNat sep d.units).filter (fun c => c ≠ ' ') =
      (if sep = ' ' then natToChars d.units else groupedNat sep d.units) := by
  rcases mem_sep_cases hsep with h | h | h
  · subst h
    rw [if_neg (by decide)]
    refine groupedNat_filter_self _ _ _ (by decide) (fun c hc => ?_)
    simp [digit_not_space hc]
  · subst h
    rw [if_neg (by decide)]
    refine groupedNat_filter_self _ _ _ (by decide) (fun c hc => ?_)
    simp [digit_not_space hc]
  · subst h
    rw [if_pos rfl]
    refine groupedNat_filter _ _ _ (by decide) (fun c hc => ?_)
    simp [digit_not_space hc]

theorem c9_A_mem (d : Decimal) (sep : Char) :
    ∀ c ∈ (if sep = ' ' then natToChars d.units else groupedNat sep d.units),
      c.isDigit = true ∨ c = sep := by
  intro c hc
  split at hc
  · left; exact natToChars_digits _ c hc
  · exact groupedNat_mem sep _ c hc

theorem c9_A_ne_nil (d : Decimal) (sep : Char) :
    (if sep = ' ' then natToChars d.units else groupedNat sep d.units) ≠ [] := by
  split
  · exact natToChars_ne_nil _
  · exact groupedNat_ne_nil _ _

theorem sep_not_dash (sep : Char) (hsep : sep ∈ (['.', ',', ' '] : List Char)) :
    sep ≠ '-' := by
  rcases mem_sep_cases hsep with h | h | h <;> simp [h]

theorem c9_repl (d : Decimal) (sep : Char)
    (hsep : sep ∈ (['.', ',', ' '] : List Char)) (hok : d.fracOk) :
    pnRepl (formatNumber d sep) =
      (if sep = ' ' then natToChars d.units else groupedNat sep d.units) ++
        (if d.frac.isEmpty then [] else
          decSepFor sep :: d.frac.map Nat.digitChar) := by
  unfold pnRepl formatNumber
  have hdata : (String.mk (groupedNat sep d.units ++
      (if d.frac.isEmpty then [] else decSepFor sep :: d.frac.map Nat.digitChar) ++
      (if d.neg then ['-'] else []))).data =
      groupedNat sep d.units ++
      (if d.frac.isEmpty then [] else decSepFor sep :: d.frac.map Nat.digitChar) ++
      (if d.neg then ['-'] else []) := rfl
  rw [hdata]
  rw [List.filter_append, List.filter_append]
  rw [c9_A_eq d sep hsep]
  have hmid : (if d.frac.isEmpty then [] else
      decSepFor sep :: d.frac.map Nat.digitChar).filter (fun c => c ≠ ' ') =
      (if d.frac.isEmpty then [] else
        decSepFor sep :: d.frac.map Nat.digitChar) := by
    refine filter_eq_self_of_forall (fun c hc => ?_)
    split at hc
    · simp at hc
    · rcases List.mem_cons.1 hc with rfl | hc
      · rcases decSepFor_cases sep hsep with h | h <;> simp [h]
      · simp [digit_not_space (frac_digits d hok c hc)]
  have hsign : (if d.neg then ['-'] else []).filter (fun c => c ≠ ' ') =
      (if d.neg then ['-'] else []) := by
    refine filter_eq_self_of_forall (fun c hc => ?_)
    split at hc
    · simp at hc
      subst hc
      simp
    · simp at hc
  rw [hmid, hsign]
  refine stripDashes_shape _ _ d.neg (c9_A_ne_nil d sep) ?_ ?_
  · intro c hc
    rcases c9_A_mem d sep c hc with h | h
    · exact digit_not_dash h
    · rw [h]; exact sep_not_dash sep hsep
  · intro c hc
    split at hc
    · simp at hc
    · rcases List.mem_cons.1 hc with rfl | hc
      · rcases decSepFor_cases sep hsep with h | h <;> simp [h]
      · exact digit_not_dash (frac_digits d hok c hc)

end ClaimMgmt

namespace ClaimMgmt

theorem c9_decimals_frac (d : Decimal) (sep : Char)
    (hsep : sep ∈ (['.', ',', ' '] : List Char)) (hok : d.fracOk)
    (hfrac : d.frac ≠ []) :
    pnDecimals (formatNumber d sep) = d.frac.length := by
  unfold pnDecimals
  have hfe : d.frac.isEmpty = false := by simpa using hfrac
  rw [c9_repl d sep hsep hok]
  simp only [hfe, Bool.false_eq_true, if_false]
  have hds := decSepFor_cases sep hsep
  have hds_nd : (decSepFor sep).isDigit = false := by
    rcases hds with h | h <;> simp [h]
  have hany : (((if sep = ' ' then natToChars d.units else groupedNat sep d.units) ++
      decSepFor sep :: d.frac.map Nat.digitChar).any (fun c => ¬ c.isDigit)) = true := by
    refine List.any_eq_true.2 ⟨decSepFor sep, by simp, ?_⟩
    simp [hds_nd]
  rw [if_pos hany]
  rw [List.reverse_append, List.reverse_cons, List.append_assoc]
  rw [List.singleton_append]
  rw [takeWhile_append_eq (fun c hc =>
    frac_digits d hok c (List.mem_reverse.1 hc)) hds_nd]
  simp

theorem c9_decimals_nofrac (d : Decimal) (sep : Char)
    (hsep : sep ∈ (['.', ',', ' '] : List Char)) (hok : d.fracOk)
    (hfrac : d.frac = []) (hsmall : sep = ' ' ∨ d.units < 1000) :
    pnDecimals (formatNumber d sep) = 0 := by
  unfold pnDecimals
  have hfe : d.frac.isEmpty = true := by simpa using hfrac
  rw [c9_repl d sep hsep hok]
  simp only [hfe, if_true, List.append_nil]
  have hA : (if sep = ' ' then natToChars d.units else groupedNat sep d.units) =
      natToChars d.units := by
    rcases hsmall with h | h
    · rw [if_pos h]
    · split
      · rfl
      · exact groupedNat_small sep d.units h
  rw [hA]
  rw [if_neg ?side]
  case side =>
    simp only [List.any_eq_true, not_exists]
    intro c
    rintro ⟨hc, hnd⟩
    simp [natToChars_digits d.units c hc] at hnd

theorem c9_digits (d : Decimal) (sep : Char)
    (hsep : sep ∈ (['.', ',', ' '] : List Char)) (hok : d.fracOk) :
    pnDigits (formatNumber d sep) =
      natToChars d.units ++ d.frac.map Nat.digitChar := by
  unfold pnDigits
  rw [c9_repl d sep hsep hok]
  rw [List.filter_append]
  have hA : (if sep = ' ' then natToChars d.units else
      groupedNat sep d.units).filter (fun c => c ≠ '.' ∧ c ≠ ',') =
      natToChars d.units := by
    split
    · refine filter_eq_self_of_forall (fun c hc => ?_)
      have := digit_not_dot_comma (natToChars_digits d.units c hc)
      simp [this.1, this.2]
    · rename_i hs
      have hdc : sep = '.' ∨ sep = ',' := by
        rcases mem_sep_cases hsep with h | h | h
        · left; exact h
        · right; exact h
        · exact absurd h hs
      refine groupedNat_filter _ _ _ ?_ (fun c hc => ?_)
      · rcases hdc with h | h <;> simp [h]
      · have := digit_not_dot_comma hc
        simp [this.1, this.2]
  rw [hA]
  have hmid : (if d.frac.isEmpty then [] else
      decSepFor sep :: d.frac.map Nat.digitChar).filter
        (fun c => c ≠ '.' ∧ c ≠ ',') = d.frac.map Nat.digitChar := by
    split
    · rename_i h
      rw [List.isEmpty_iff] at h
      simp [h]
    · rw [List.filter_cons]
      rw [if_neg (by
        rcases decSepFor_cases sep hsep with h | h <;> simp [h])]
      refine filter_eq_self_of_forall (fun c hc => ?_)
      have := digit_not_dot_comma (frac_digits d hok c hc)
      simp [this.1, this.2]
  rw [hmid]

theorem c9_contains (d : Decimal) (sep : Char)
    (hsep : sep ∈ (['.', ',', ' '] : List Char)) (hok : d.fracOk) :
    (formatNumber d sep).data.contains '-' = d.neg := by
  unfold formatNumber
  cases hneg : d.neg with
  | true =>
      have hmem : ('-' : Char) ∈ groupedNat sep d.units ++
          (if d.frac.isEmpty then [] else
            decSepFor sep :: d.frac.map Nat.digitChar) ++ ['-'] := by
        simp
      exact List.elem_iff.2 (by simpa [hneg] using hmem)
  | false =>
      simp only [hneg, if_false]
      rw [Bool.eq_false_iff]
      intro hcon
      have hmem : ('-' : Char) ∈ groupedNat sep d.units ++
          (if d.frac.isEmpty then [] else
            decSepFor sep :: d.frac.map Nat.digitChar) ++ [] :=
        List.elem_iff.1 hcon
      simp only [List.append_nil, List.mem_append] at hmem
      rcases hmem with h | h
      · rcases groupedNat_mem sep d.units '-' h with hd | hd
        · simp at hd
        · exact sep_not_dash sep hsep hd.symm
      · split at h
        · simp at h
        · rcases List.mem_cons.1 h with he | he
          · rcases decSepFor_cases sep hsep with hz | hz <;> rw [hz] at he <;> simp at he
          · exact digit_not_dash (frac_digits d hok '-' he) rfl

theorem c9_guard (d : Decimal) (sep : Char)
    (hsep : sep ∈ (['.', ',', ' '] : List Char)) (hok : d.fracOk) :
    ¬ ((pnDigits (formatNumber d sep)).isEmpty ∨
        ¬ (pnDigits (formatNumber d sep)).all Char.isDigit) := by
  rw [c9_digits d sep hsep hok]
  rintro (h | h)
  · rw [List.isEmpty_iff] at h
    exact natToChars_ne_nil d.units (List.append_eq_nil.1 h).1
  · refine h (List.all_eq_true.2 (fun c hc => ?_))
    rcases List.mem_append.1 hc with hm | hm
    · exact natToChars_digits _ c hm
    · exact frac_digits d hok c hm

theorem parse_number_infer_eval (s : String)
    (hg : ¬ ((pnDigits s).isEmpty ∨ ¬ (pnDigits s).all Char.isDigit)) :
    parse_number (.str s) .infer .raise =
      (if pnDecimals s = 0 then
        .ok (.int (if s.data.contains '-' then
          -(natOfDigitChars (pnDigits s) : ℤ)
        else (natOfDigitChars (pnDigits s) : ℤ)))
      else .ok (.float (pnQ1 s))) := by
  show (if (pnDigits s).isEmpty ∨ ¬ (pnDigits s).all Char.isDigit then
      Except.error (PyErr.typeError "Only numeric values are accepted!")
    else
      if pnDecimals s = 0 then
        Except.ok (PyVal.int (if s.data.contains '-' then
          -(natOfDigitChars (pnDigits s) : ℤ)
        else (natOfDigitChars (pnDigits s) : ℤ)))
      else Except.ok (PyVal.float (pnQ1 s))) = _
  rw [if_neg hg]

theorem c9_value_frac (d : Decimal) (sep : Char)
    (hsep : sep ∈ (['.', ',', ' '] : List Char)) (hok : d.fracOk)
    (hfrac : d.frac ≠ []) :
    pnQ1 (formatNumber d sep) = d.value := by
  have hne : pnDecimals (formatNumber d sep) ≠ 0 := by
    rw [c9_decimals_frac d sep hsep hok hfrac]
    exact fun h => hfrac (List.length_eq_zero.1 h)
  unfold pnQ1 pnQ0
  rw [if_pos hne, c9_contains d sep hsep hok,
      c9_decimals_frac d sep hsep hok hfrac, c9_digits d sep hsep hok,
      natOfDigitChars_append, natOfDigitChars_natToChars, List.length_map]
  unfold Decimal.value
  cases d.neg
  · rw [if_neg (by simp), if_neg (by simp)]
    push_cast
    field_simp
  · rw [if_pos rfl, if_pos rfl]
    push_cast
    field_simp

/-- C9: round-tripping a formatted decimal through `Parser.parse_number`.
For every decimal with 1-4 fractional digits, any sign and any
thousand-separator style in `{'.', ',', ' '}`, parsing the formatted string
returns the decimal's value as a float.  For a decimal with zero fractional
digits the round trip returns the integer value only when the separator is
`' '` or the integer part is below 1000: otherwise the separator survives
whitespace removal and `parse_number` reads the final 3-digit group as a
fractional part (the claim's unrestricted zero-fraction case is refuted by
`C9_counterexample`). -/
theorem C9_parse_format_roundtrip (d : Decimal) (sep : Char)
    (hsep : sep ∈ (['.', ',', ' '] : List Char)) (hok : d.fracOk)
    (hlen : d.frac.length ≤ 4) :
    (d.frac ≠ [] →
      parse_number (.str (formatNumber d sep)) .infer .raise =
        .ok (.float d.value)) ∧
    (d.frac = [] → (sep = ' ' ∨ d.units < 1000) →
      parse_number (.str (formatNumber d sep)) .infer .raise =
        .ok (.int (if d.neg then -(d.units : ℤ) else (d.units : ℤ)))) := by
  constructor
  · intro hfrac
    have hne : pnDecimals (formatNumber d sep) ≠ 0 := by
      rw [c9_decimals_frac d sep hsep hok hfrac]
      exact fun h => hfrac (List.length_eq_zero.1 h)
    rw [parse_number_infer_eval _ (c9_guard d sep hsep hok), if_neg hne,
        c9_value_frac d sep hsep hok hfrac]
  · intro hfrac hsmall
    rw [parse_number_infer_eval _ (c9_guard d sep hsep hok),
        if_pos (c9_decimals_nofrac d sep hsep hok hfrac hsmall),
        c9_contains d sep hsep hok, c9_digits d sep hsep hok, hfrac]
    simp only [List.map_nil, List.append_nil, natOfDigitChars_natToChars]

/-- C9 counterexample: the integer 1000 formatted with the `'.'` separator
style is the string `"1.000"`, but `parse_number` returns the float 1, not
1000 - the grouped integer is misread as `1.000` with three decimals (the
source docstring itself shows `parse_number('1,000', coerce='int')` = 1). -/
theorem C9_counterexample :
    formatNumber ⟨false, 1000, []⟩ '.' = "1.000" ∧
    Decimal.value ⟨false, 1000, []⟩ = 1000 ∧
    parse_number (.str "1.000") .infer .raise = .ok (.float 1) ∧
    (1 : ℚ) ≠ 1000 := by
  refine ⟨rfl, by with_unfolding_all rfl, by with_unfolding_all rfl, by norm_num⟩

theorem C9_parse_format_roundtrip_witness :
    parse_number (.str (formatNumber ⟨true, 1234, [5, 6]⟩ '.')) .infer .raise =
      .ok (.float (Decimal.value ⟨true, 1234, [5, 6]⟩)) ∧
    parse_number (.str (formatNumber ⟨false, 999, []⟩ ',')) .infer .raise =
      .ok (.int 999) := by
  constructor
  · exact (C9_parse_format_roundtrip ⟨true, 1234, [5, 6]⟩ '.' (by decide)
      (by unfold Decimal.fracOk; decide) (by decide)).1 (by decide)
  · have h := (C9_parse_format_roundtrip ⟨false, 999, []⟩ ',' (by decide)
      (by unfold Decimal.fracOk; decide) (by decide)).2 rfl (Or.inr (by decide))
    simpa using h

/-! ## Template extraction engine (`svc_extractor/parsers.py`, `Template`)

The `re` regex engine is external: `re.findall` is modelled by a `FindAll`
oracle mapping a pattern and a text to the list of matches (strings, or
tuples of group values modelled as `PyVal.list`), and `re.sub` by a `ReSub`
oracle. -/

/-- Oracle for `re.findall(patt, text)`. -/
def FindAll := String → String → List PyVal

/-- Oracle for `re.sub(patt, repl, text)`. -/
def ReSub := String → String → String → String

/-- The `parse_items` interface of the composite parsers (`items`, `amount`)
(`amount` arrives as whatever `output["amount"]` holds). -/
def ParseItems := List PyVal → PyVal → Except PyErr PyVal

/-- Python `str.isnumeric` (the repository only feeds it ASCII digits). -/
def pyIsNumeric (s : String) : Bool :=
  ¬ s.data.isEmpty && s.data.all Char.isDigit

/-- Python `str.startswith`. -/
def pyStartsWith (s pre : String) : Bool :=
  pre.data.isPrefixOf s.data

/-- Python indexing `v[i]` (strings index to 1-character strings; tuples are
modelled as lists). -/
def pyIndex (v : PyVal) (i : ℕ) : Except PyErr PyVal :=
  match v with
  | .list l =>
      match l.get? i with
      | some x => .ok x
      | Option.none => .error .indexError
  | .str s =>
      match s.data.get? i with
      | some c => .ok (.str ⟨[c]⟩)
      | Option.none => .error .indexError
  | _ => .error (.typeError "object is not subscriptable")

/-- Python division of numbers (raises `ZeroDivisionError` on a zero
denominator). -/
def pyDivQ (a b : ℚ) : Except PyErr ℚ :=
  if b = 0 then .error .zeroDivisionError else .ok (a / b)

/-- Python `!=` between a number and an arbitrary value: numbers compare by
value, any other type compares unequal (no exception). -/
def pyNeQ (q : ℚ) (v : PyVal) : Bool :=
  match v with
  | .int n => decide (q ≠ (n : ℚ))
  | .float a => decide (q ≠ a)
  | _ => true

/-- Python `round(x, 2)` (half-to-even, as in `create_status_sales`). -/
def roundQ2 (q : ℚ) : ℚ :=
  (roundHalfEvenInt (q * 100) : ℚ) / 100

/-- Python `==` on values, used by the `list(set(res_find))` deduplication in
`Template._match_patterns`. -/
def PyVal.beq : PyVal → PyVal → Bool
  | .none, .none => true
  | .int a, .int b => a == b
  | .float a, .float b => a == b
  | .str a, .str b => a == b
  | .list [], .list [] => true
  | .list (a :: as), .list (b :: bs) => PyVal.beq a b && PyVal.beq (.list as) (.list bs)
  | _, _ => false

instance : BEq PyVal := ⟨PyVal.beq⟩

/-- The pattern loop of `Template._match_patterns`: the matches of the first
pattern that matches at all are kept (`break`), later patterns are ignored. -/
def firstFound (fa : FindAll) (text : String) : List String → List PyVal
  | [] => []
  | patt :: rest =>
      match fa patt text with
      | [] => firstFound fa text rest
      | m :: ms => m :: ms

/-- `Template._match_patterns` (a single regex is modelled as a one-element
pattern list, mirroring `rx_patts = regex if isinstance(regex, list) else
[regex]`).  `list(set(res_find))` has unspecified order in Python; it is
modelled as keeping the first occurrence of each value. -/
def match_patterns (fa : FindAll) (text : String) (rx_patts : List String)
    (duplicates : Bool) : List PyVal :=
  if duplicates then firstFound fa text rx_patts
  else (firstFound fa text rx_patts).eraseDups

/-- `Template._unique_value_fields`. -/
def unique_value_fields : List String :=
  ["amount", "document_number", "archive_number", "return_number",
   "agreement_number", "supplier", "subtotals", "identifier", "branch", "zip"]

/-- The per-number loop of `Template._validate_numbering` with `field = None`
(each value must be a numeric string; a non-string raises `AttributeError`
at `num.isnumeric()`). -/
def checkNumPlain : List PyVal → Except PyErr Unit
  | [] => .ok ()
  | .str num :: rest =>
      if ¬ pyIsNumeric num then
        .error (.valueError ("Invalid number: " ++ num ++ "!"))
      else checkNumPlain rest
  | _ :: _ => .error (.attributeError "isnumeric")

/-- `Template._validate_numbering` with `field = None`. -/
def validate_numbering_plain (val : PyVal) : Except PyErr Unit :=
  match val with
  | .list l => checkNumPlain l
  | .str s => checkNumPlain [.str s]
  | _ => .error (.typeError "Value with type 'str' or 'list' expected!")

/-- The per-number loop of `Template._validate_numbering` with an explicit
`field` name (the numbering rules per reference field). -/
def checkNumField (field : String) : List PyVal → Except PyErr Unit
  | [] => .ok ()
  | .str num :: rest =>
      if field = "delivery_number" then
        if ¬ pyStartsWith num "31" ∨ num.data.length ≠ 9 then
          .error (.valueError ("Invalid delivery note number: " ++ num ++ "!"))
        else checkNumField field rest
      else if field = "invoice_number" then
        if ¬ pyIsNumeric num ∨ pyStartsWith num "0" ∨ num.data.length ≠ 9 then
          .error (.valueError ("Invalid invoice number: " ++ num ++ "!"))
        else checkNumField field rest
      else if field = "purchase_order_number" then
        if ¬ pyIsNumeric num ∨ pyStartsWith num "0" ∨
            ¬ (5 ≤ num.data.length ∧ num.data.length ≤ 7) then
          .error (.valueError ("Invalid purchase order number: " ++ num ++ "!"))
        else checkNumField field rest
      else if field = "return_number" then
        if ¬ (pyIsNumeric num ∧ 6 ≤ num.data.length ∧ num.data.length ≤ 7) then
          .error (.valueError ("Invalid return number: " ++ num ++ "!"))
        else checkNumField field rest
      else if field = "agreement_number" then
        if ¬ (pyIsNumeric num ∨ num.data.length = 10) then
          .error (.valueError ("Invalid agreement number: " ++ num ++ "!"))
        else checkNumField field rest
      else .error (.valueError ("Unrecognized numbering type: '" ++ field ++ "'!"))
  | _ :: _ => .error (.attributeError "startswith")

/-- `[val.strip() for val in result[0]]` in the `reason` branch (a non-string
element raises `AttributeError` at `val.strip()`). -/
def stripAll : List PyVal → Except PyErr (List PyVal)
  | [] => .ok []
  | .str s :: rest =>
      match stripAll rest with
      | .error e => .error e
      | .ok vs => .ok (.str (pyStrip s) :: vs)
  | _ :: _ => .error (.attributeError "strip")

/-- Python iteration over a value (`parse_numbers(result[0], ...)` in the
`subtotals` branch): lists yield their elements, strings their characters as
1-character strings, anything else raises `TypeError`. -/
def pyIterate (v : PyVal) : Except PyErr (List PyVal) :=
  match v with
  | .list l => .ok l
  | .str s => .ok (s.data.map fun c => .str ⟨[c]⟩)
  | _ => .error (.typeError "object is not iterable")

/-- The `options` section of a template file, merged with the defaults in
`Template.__init__` (a `replace` entry is a validated 2-element list,
modelled as a pair). -/
structure TemplOptions where
  remove_whitespace : Bool
  lowercase : Bool
  replace : List (String × String)

/-- A loaded template (`Template.__init__` has validated and normalised the
header fields; `category` is `None` for credit notes).  A regex entry of
`fields` is the `rx_patts` pattern list; `exclusive_keywords` is `[]` when
the key is absent from the yaml file. -/
structure Templ where
  issuer : String
  name : String
  kind : String
  template_id : String
  category : PyVal
  options : TemplOptions
  fields : List (String × List String)
  optional_fields : List String
  inclusive_keywords : List String
  exclusive_keywords : List String

/-- `Template.prepare_input`. -/
def prepare_input (sub : ReSub) (t : Templ) (raw_str : String) : String :=
  (if t.options.lowercase then
      (if t.options.remove_whitespace then sub "\\s\x7b2,\x7d" "" raw_str
       else raw_str).toLower
    else
      (if t.options.remove_whitespace then sub "\\s\x7b2,\x7d" "" raw_str
       else raw_str)) |> fun optimized_str =>
    t.options.replace.foldl (fun acc repl => sub repl.1 repl.2 acc) optimized_str

/-- `Template.matches_keywords` (`bool(re.findall(kwd, text))` is modelled as
non-emptiness of the oracle's match list). -/
def matches_keywords (fa : FindAll) (t : Templ) (text : String) : Bool :=
  (t.inclusive_keywords.all fun kwd => ¬ (fa kwd text).isEmpty) &&
  ¬ (t.exclusive_keywords.any fun kwd => ¬ (fa kwd text).isEmpty)

/-- The body of one iteration of the field loop of `Template.extract`
(`parsers.py:995-1051`, the `elif` chain on the field name): given the
matches for a field, skip it (`Option.none` - no match found, logged only),
raise, or produce the value stored by `output[fld] = ...`.  The only part of
`output` the body reads is `output["amount"]` (in the `items` branch), so
that lookup is passed explicitly. -/
def fieldValue (parser : Option ParseItems) (amountVal : Option PyVal)
    (fld : String) (result : List PyVal) : Except PyErr (Option PyVal) :=
  if result.length = 0 then .ok Option.none
  else if 1 < result.length ∧ fld ∈ unique_value_fields then
    .error (.patternMatchError ("Field '" ++ fld ++
      "': regex pattern matched multiple values while only one is expected!"))
  else if fld = "amount" then
    match parse_number (result.headD .none) .toFloat .raise with
    | .error e => .error e
    | .ok v =>
        match pyToQ v with
        | .error e => .error e
        | .ok q =>
            if q ≤ 0 then
              .error (.valueError
                "Extracted document amount must be a non-zero positive float!")
            else .ok (some v)
  else if fld = "zip" ∨ fld = "archive_number" ∨ fld = "branch" then
    match validate_numbering_plain (result.headD .none) with
    | .error e => .error e
    | .ok _ =>
        match parse_number (result.headD .none) .toInt .raise with
        | .error e => .error e
        | .ok v => .ok (some v)
  else if fld = "supplier" ∨ fld = "document_number" ∨ fld = "identifier" ∨
      fld = "backreference_number" then
    match parse_number (result.headD .none) .toInt .ignore with
    | .error e => .error e
    | .ok v => .ok (some v)
  else if fld = "tax" then
    if result.length = 1 then
      match parse_number (result.headD .none) .toFloat .raise with
      | .error e => .error e
      | .ok v => .ok (some v)
    else
      match parse_numbers result .toFloat with
      | .error e => .error e
      | .ok vs => .ok (some (.list vs))
  else if fld = "subtotals" then
    match pyIterate (result.headD .none) with
    | .error e => .error e
    | .ok elems =>
        match parse_numbers elems .toFloat with
        | .error e => .error e
        | .ok vs => .ok (some (.list vs))
  else if fld = "delivery_number" ∨ fld = "invoice_number" ∨
      fld = "purchase_order_number" ∨ fld = "return_number" ∨
      fld = "agreement_number" then
    match checkNumField fld result with
    | .error e => .error e
    | .ok _ =>
        if result.length = 1 then
          match parse_number (result.headD .none) .toInt .raise with
          | .error e => .error e
          | .ok v => .ok (some v)
        else
          match parse_numbers result .toInt with
          | .error e => .error e
          | .ok vs => .ok (some (.list vs))
  else if fld = "items" then
    match parser with
    | some parse_items =>
        match amountVal with
        | Option.none => .error (.keyError "amount")
        | some amt =>
            match parse_items result amt with
            | .error e => .error e
            | .ok v => .ok (some v)
    | Option.none => .ok (some (.list result))
  else if fld = "email" then
    match result.headD .none with
    | .str s => .ok (some (.str (pyReplace s " " "")))
    | _ => .error (.attributeError "replace")
  else if fld = "reason" then
    match result.headD .none with
    | .list l =>
        match stripAll l with
        | .error e => .error e
        | .ok vs => .ok (some (.list vs))
    | .str s => .ok (some (.str (pyStrip s)))
    | _ => .error (.typeError "Unexpected type of the 'reason' field!")
  else .ok (some (result.headD .none))

/-- One iteration of the field loop on the output dict built so far. -/
def processFieldResult (parser : Option ParseItems) (out : Dict) (fld : String)
    (result : List PyVal) : Except PyErr Dict :=
  match fieldValue parser (out.get? "amount") fld result with
  | .error e => .error e
  | .ok Option.none => .ok out
  | .ok (some v) => .ok (out.set fld v)

/-- One iteration of the field loop, including the pattern matching
(`allow_duplicates = fld == "items"`). -/
def processField (fa : FindAll) (parser : Option ParseItems) (text : String)
    (out : Dict) (fld : String) (regex : List String) : Except PyErr Dict :=
  processFieldResult parser out fld
    (match_patterns fa text regex (decide (fld = "items")))

/-- The field loop of `Template.extract`. -/
def processFields (fa : FindAll) (parser : Option ParseItems) (text : String) :
    List (String × List String) → Dict → Except PyErr Dict
  | [], out => .ok out
  | (fld, regex) :: rest, out =>
      match processField fa parser text out fld regex with
      | .error e => .error e
      | .ok out' => processFields fa parser text rest out'

/-- `req_unmatched`: the required fields (template fields minus
`optional_fields`) that are missing from the output keys. -/
def requiredUnmatched (t : Templ) (out : Dict) : List String :=
  (t.fields.map Prod.fst).filter fun f =>
    f ∉ t.optional_fields ∧ ¬ out.hasKey f

/-- `assert output[k] is not None` (a missing key raises `KeyError`, a `None`
value `AssertionError`). -/
def assertNotNone (out : Dict) (k : String) : Except PyErr Unit :=
  match out.get? k with
  | Option.none => .error (.keyError k)
  | some PyVal.none => .error (.assertionError "")
  | some _ => .ok ()

/-- The block of final asserts of `Template.extract`, in source order. -/
def assertsLoop (out : Dict) : List String → Except PyErr Unit
  | [] => .ok ()
  | k :: ks =>
      match assertNotNone out k with
      | .error e => .error e
      | .ok _ => assertsLoop out ks

def finalAsserts (out : Dict) : Except PyErr Unit :=
  assertsLoop out
    ["issuer", "name", "kind", "document_number", "amount", "template_id"]

/-- `Template.extract`: header fields, the field loop, the required-fields
check (the `PatternMatchError` message interpolates a Python set, whose
order is unspecified; it is modelled as a fixed message) and the final
asserts.  The accepted data parser (`accept_parser`) is passed alongside the
template: `some` composite `parse_items` or `Option.none` (plain parser, the
`items` branch then stores the raw match list). -/
def Templ.extract (t : Templ) (parser : Option ParseItems) (fa : FindAll)
    (text : String) : Except PyErr Dict :=
  match processFields fa parser text t.fields
      [("issuer", .str t.issuer), ("name", .str t.name), ("kind", .str t.kind),
       ("template_id", .str t.template_id), ("category", t.category)] with
  | .error e => .error e
  | .ok out =>
      if requiredUnmatched t out ≠ [] then
        .error (.patternMatchError "Required fields unmatched")
      else
        match finalAsserts out with
        | .error e => .error e
        | .ok _ => .ok out

/-- `Extractor._extract_data`: try the templates in order and return the first
matching template's extraction; raise `TemplateNotFoundError` when no
template matches.  `parserFor` supplies each template's accepted parser. -/
def extract_data (fa : FindAll) (sub : ReSub) (parserFor : Templ → Option ParseItems)
    (text : String) : List Templ → Except PyErr Dict
  | [] => .error (.templateNotFoundError "No template matched the document text!")
  | t :: rest =>
      if matches_keywords fa t (prepare_input sub t text) then
        Templ.extract t (parserFor t) fa (prepare_input sub t text)
      else extract_data fa sub parserFor text rest

/-! ## Line-item reconcilers (`ObiParser._parse_penalty`,
`RollerParser._parse_return`) -/

/-- The item loop of `ObiParser._parse_penalty`: parse each
`(partial_penalty, po_number, item_amount)` row, stop early on an invalid
tax rate (`err_tax_rate = True; break` and the subsequent `return None`,
modelled as `.ok Option.none`), and accumulate the penalty sum. -/
def obi_penalty_loop : List PyVal → List PyVal → ℚ →
    Except PyErr (Option (List PyVal × ℚ))
  | [], result, items_amount => .ok (some (result, items_amount))
  | item :: rest, result, items_amount =>
      match pyIndex item 0 with
      | .error e => .error e
      | .ok i0 =>
      match parse_number i0 .infer .raise with
      | .error e => .error e
      | .ok partial_penalty =>
      match pyIndex item 1 with
      | .error e => .error e
      | .ok i1 =>
      match parse_number i1 .toInt .raise with
      | .error e => .error e
      | .ok po_number =>
      match pyIndex item 2 with
      | .error e => .error e
      | .ok i2 =>
      match parse_number i2 .infer .raise with
      | .error e => .error e
      | .ok item_amount =>
      match pyToQ partial_penalty with
      | .error e => .error e
      | .ok pp =>
      match pyToQ item_amount with
      | .error e => .error e
      | .ok ia =>
      match pyDivQ pp ia with
      | .error e => .error e
      | .ok ratio =>
          if truncQ (ratio * 100) = 2 ∨ truncQ (ratio * 100) = 25 then
            obi_penalty_loop rest
              (result ++ [.list [partial_penalty, po_number, item_amount]])
              (items_amount + pp)
          else .ok Option.none

/-- `ObiParser._parse_penalty` (`parsers.py:549-586`): row parsing, the
tax-rate early exit, and the sum-mismatch check, both returning `None`
instead of raising. -/
def obi_parse_penalty (items : List PyVal) (amount : PyVal) :
    Except PyErr PyVal :=
  match obi_penalty_loop items [] 0 with
  | .error e => .error e
  | .ok Option.none => .ok .none
  | .ok (some (result, items_amount)) =>
      if pyNeQ (roundQ2 items_amount) amount then .ok .none
      else .ok (.list result)

/-- The item loop of `RollerParser._parse_return`: parse each row, validate
pieces / tax rate / gross amount (these DO raise `ValueError`), and track
`items_amount = amount_net + amount_tax` (a plain assignment in the source,
not an accumulation). -/
def roller_return_loop : List PyVal → List PyVal → ℚ →
    Except PyErr (List PyVal × ℚ)
  | [], result, items_amount => .ok (result, items_amount)
  | item :: rest, result, _ =>
      match pyIndex item 0 with
      | .error e => .error e
      | .ok i0 =>
      match parse_number i0 .toInt .raise with
      | .error e => .error e
      | .ok n_pieces =>
      match pyIndex item 1 with
      | .error e => .error e
      | .ok i1 =>
      match parse_number i1 .toFloat .raise with
      | .error e => .error e
      | .ok amount_net =>
      match pyIndex item 2 with
      | .error e => .error e
      | .ok i2 =>
      match parse_number i2 .toFloat .raise with
      | .error e => .error e
      | .ok tax_rate =>
      match pyIndex item 3 with
      | .error e => .error e
      | .ok i3 =>
      match parse_number i3 .toFloat .raise with
      | .error e => .error e
      | .ok amount_tax =>
      match pyIndex item 4 with
      | .error e => .error e
      | .ok i4 =>
      match parse_number i4 .toFloat .raise with
      | .error e => .error e
      | .ok amount_gross =>
      match pyToQ n_pieces with
      | .error e => .error e
      | .ok np =>
      match pyToQ tax_rate with
      | .error e => .error e
      | .ok tr =>
      match pyToQ amount_gross with
      | .error e => .error e
      | .ok ag =>
      match pyToQ amount_net with
      | .error e => .error e
      | .ok an =>
      match pyToQ amount_tax with
      | .error e => .error e
      | .ok at_ =>
          if np ≤ 0 then
            .error (.valueError "Number of pieces must be a positive integer!")
          else if ¬ (tr = 19 ∨ tr = 0) then
            .error (.valueError "Incorrect tax rate!")
          else if ag ≤ 0 then
            .error (.valueError "Item gross amount must be a positive float!")
          else
            roller_return_loop rest
              (result ++ [.list [n_pieces, amount_net, tax_rate, amount_gross]])
              (an + at_)

/-- `RollerParser._parse_return` (`parsers.py:610-644`): row parsing with
validation, then the sum-mismatch check returning `None` instead of
raising. -/
def roller_parse_return (items : List PyVal) (amount : PyVal) :
    Except PyErr PyVal :=
  match roller_return_loop items [] 0 with
  | .error e => .error e
  | .ok (result, items_amount) =>
      if pyNeQ (roundQ2 items_amount) amount then .ok .none
      else .ok (.list result)

theorem Dict.keys_set (d : Dict) (k : String) (v : PyVal) :
    Dict.keys (Dict.set d k v) =
      if Dict.hasKey d k then Dict.keys d else Dict.keys d ++ [k] := by
  induction d with
  | nil => simp [Dict.set, Dict.keys, Dict.hasKey, Dict.get?]
  | cons hd tl ih =>
      obtain ⟨k', v'⟩ := hd
      by_cases h : k' = k
      · subst h
        simp [Dict.set, Dict.keys, Dict.hasKey, Dict.get?]
      · have hset : Dict.set ((k', v') :: tl) k v = (k', v') :: Dict.set tl k v := by
          simp [Dict.set, h]
        have hhk : Dict.hasKey ((k', v') :: tl) k = Dict.hasKey tl k := by
          simp [Dict.hasKey, Dict.get?, h]
        rw [hset, show Dict.keys ((k', v') :: Dict.set tl k v) =
          k' :: Dict.keys (Dict.set tl k v) from rfl, ih, hhk]
        by_cases hk : Dict.hasKey tl k
        · rw [if_pos hk, if_pos hk]; rfl
        · rw [if_neg hk, if_neg hk]; rfl

theorem Dict.hasKey_iff_mem (d : Dict) (k : String) :
    Dict.hasKey d k = true ↔ k ∈ Dict.keys d := by
  induction d with
  | nil => simp [Dict.hasKey, Dict.get?, Dict.keys]
  | cons hd tl ih =>
      obtain ⟨k', v'⟩ := hd
      by_cases h : k' = k
      · subst h; simp [Dict.hasKey, Dict.get?, Dict.keys]
      · have hne : k ≠ k' := fun hh => h hh.symm
        simp [Dict.hasKey, Dict.get?, Dict.keys, h, hne] at ih ⊢
        exact ih

theorem hasKey_eq_of_keys_eq {d₁ d₂ : Dict} (h : Dict.keys d₂ = Dict.keys d₁)
    (k : String) : Dict.hasKey d₂ k = Dict.hasKey d₁ k := by
  cases h1 : Dict.hasKey d₁ k
  · cases h2 : Dict.hasKey d₂ k
    · rfl
    · have hm := (Dict.hasKey_iff_mem d₂ k).1 h2
      rw [h] at hm
      rw [(Dict.hasKey_iff_mem d₁ k).2 hm] at h1
      exact absurd h1 (by simp)
  · have hm := (Dict.hasKey_iff_mem d₁ k).1 h1
    rw [← h] at hm
    exact (Dict.hasKey_iff_mem d₂ k).2 hm

/-- For a field other than `items`, the loop body reads neither the parser
nor `output["amount"]`. -/
theorem fieldValue_indep (p p' : Option ParseItems) (a a' : Option PyVal)
    (fld : String) (result : List PyVal) (h : fld ≠ "items") :
    fieldValue p a fld result = fieldValue p' a' fld result := by
  unfold fieldValue
  by_cases h1 : result.length = 0
  · simp only [if_pos h1]
  simp only [if_neg h1]
  by_cases h2 : 1 < result.length ∧ fld ∈ unique_value_fields
  · simp only [if_pos h2]
  simp only [if_neg h2]
  by_cases h3 : fld = "amount"
  · simp only [if_pos h3]
  simp only [if_neg h3]
  by_cases h4 : fld = "zip" ∨ fld = "archive_number" ∨ fld = "branch"
  · simp only [if_pos h4]
  simp only [if_neg h4]
  by_cases h5 : fld = "supplier" ∨ fld = "document_number" ∨ fld = "identifier" ∨
      fld = "backreference_number"
  · simp only [if_pos h5]
  simp only [if_neg h5]
  by_cases h6 : fld = "tax"
  · simp only [if_pos h6]
  simp only [if_neg h6]
  by_cases h7 : fld = "subtotals"
  · simp only [if_pos h7]
  simp only [if_neg h7]
  by_cases h8 : fld = "delivery_number" ∨ fld = "invoice_number" ∨
      fld = "purchase_order_number" ∨ fld = "return_number" ∨
      fld = "agreement_number"
  · simp only [if_pos h8]
  simp only [if_neg h8, if_neg h]

/-- A field with no matches is skipped. -/
theorem fieldValue_skip (p : Option ParseItems) (a : Option PyVal)
    (fld : String) (result : List PyVal) (h : result.length = 0) :
    fieldValue p a fld result = .ok Option.none := by
  unfold fieldValue
  rw [if_pos h]

/-- Evaluation of the loop body at the `items` field. -/
theorem fieldValue_items (p : Option ParseItems) (a : Option PyVal)
    (result : List PyVal) (hres : result.length ≠ 0) :
    fieldValue p a "items" result =
      (match p with
      | some parse_items =>
          match a with
          | Option.none => .error (.keyError "amount")
          | some amt =>
              match parse_items result amt with
              | .error e => .error e
              | .ok v => .ok (some v)
      | Option.none => .ok (some (.list result))) := by
  unfold fieldValue
  rw [if_neg hres, if_neg (fun hc => absurd hc.2 (by decide)),
    if_neg (by decide), if_neg (by decide), if_neg (by decide),
    if_neg (by decide), if_neg (by decide), if_neg (by decide),
    if_pos rfl]

/-- Under `errors = "raise"`, a successful float coercion always yields a
float. -/
theorem parse_number_toFloat_ok (x : PyVal) (v : PyVal)
    (h : parse_number x .toFloat .raise = .ok v) : ∃ q, v = .float q := by
  cases x <;> simp only [parse_number] at h
  case str s =>
    split at h
    · exact absurd h (by simp)
    · exact ⟨pnQ1 s, (Except.ok.inj h).symm⟩
  all_goals exact absurd h (by simp)

/-- Evaluation of the loop body at the `amount` field (past the skip and
uniqueness guards). -/
theorem fieldValue_amount (p : Option ParseItems) (a : Option PyVal)
    (result : List PyVal) (hres : result.length ≠ 0)
    (hu : ¬ (1 < result.length ∧ "amount" ∈ unique_value_fields)) :
    fieldValue p a "amount" result =
      (match parse_number (result.headD .none) .toFloat .raise with
      | .error e => .error e
      | .ok v =>
          match pyToQ v with
          | .error e => .error e
          | .ok q =>
              if q ≤ 0 then
                .error (.valueError
                  "Extracted document amount must be a non-zero positive float!")
              else .ok (some v)) := by
  unfold fieldValue
  rw [if_neg hres, if_neg hu, if_pos rfl]

/-- A value stored by the `amount` branch is a positive float. -/
theorem fieldValue_amount_pos (p : Option ParseItems) (a : Option PyVal)
    (result : List PyVal) (v : PyVal)
    (h : fieldValue p a "amount" result = .ok (some v)) :
    ∃ q, v = .float q ∧ 0 < q := by
  by_cases hres : result.length = 0
  · rw [fieldValue_skip _ _ _ _ hres] at h
    exact absurd (Except.ok.inj h) (by simp)
  by_cases hu : 1 < result.length ∧ "amount" ∈ unique_value_fields
  · unfold fieldValue at h
    rw [if_neg hres, if_pos hu] at h
    exact absurd h (by simp)
  rw [fieldValue_amount p a result hres hu] at h
  revert h
  cases hp : parse_number (result.headD .none) .toFloat .raise with
  | error e => intro h; simp at h
  | ok w =>
      obtain ⟨q, rfl⟩ := parse_number_toFloat_ok _ _ hp
      simp only [pyToQ]
      intro h
      split at h
      · simp at h
      · rename_i hq
        simp at h
        exact ⟨q, h.symm, not_le.1 hq⟩

/-- `processFieldResult` writes (at most) the key of the field it processes. -/
theorem processFieldResult_get_other (p : Option ParseItems) (out : Dict)
    (fld : String) (result : List PyVal) (out' : Dict) (k : String)
    (hk : k ≠ fld)
    (h : processFieldResult p out fld result = .ok out') :
    Dict.get? out' k = Dict.get? out k := by
  unfold processFieldResult at h
  split at h
  · exact absurd h (by simp)
  · rw [← Except.ok.inj h]
  · rw [← Except.ok.inj h]
    exact Dict.get?_set_other out fld k _ hk

/-- Invariant relating an extraction run to the same run with a reconciler
that signals a mismatch (`None`) for the items: same keys, same values away
from `items`, and an `items` value (if any) of `None`. -/
def itemsDropped (out₁ out₂ : Dict) : Prop :=
  Dict.keys out₂ = Dict.keys out₁ ∧
  (∀ k, k ≠ "items" → Dict.get? out₂ k = Dict.get? out₁ k) ∧
  (∀ v, Dict.get? out₂ "items" = some v → v = PyVal.none)

theorem itemsDropped_set (out₁ out₂ : Dict) (fld : String) (v₁ v₂ : PyVal)
    (hd : itemsDropped out₁ out₂)
    (hv : fld = "items" → v₂ = PyVal.none) (hv' : fld ≠ "items" → v₂ = v₁) :
    itemsDropped (Dict.set out₁ fld v₁) (Dict.set out₂ fld v₂) := by
  obtain ⟨hkeys, hother, hitems⟩ := hd
  refine ⟨?_, ?_, ?_⟩
  · rw [Dict.keys_set, Dict.keys_set, hkeys, hasKey_eq_of_keys_eq hkeys]
  · intro k hk
    by_cases hkf : k = fld
    · subst hkf
      rw [Dict.get?_set_self, Dict.get?_set_self, hv' hk]
    · rw [Dict.get?_set_other _ _ _ _ hkf, Dict.get?_set_other _ _ _ _ hkf]
      exact hother k hk
  · intro v hv₂
    by_cases hf : fld = "items"
    · subst hf
      rw [Dict.get?_set_self] at hv₂
      rw [← Option.some.inj hv₂, hv rfl]
    · rw [Dict.get?_set_other _ _ _ _ (fun hh => hf hh.symm)] at hv₂
      exact hitems v hv₂

/-- One loop iteration preserves `itemsDropped` (the mismatching reconciler
run neither fails nor diverges from the reference run away from `items`). -/
theorem processField_dropped (fa : FindAll) (text : String) (f g : ParseItems)
    (hg : ∀ res amt, g res amt = .ok PyVal.none)
    (out₁ out₂ out₁' : Dict) (fld : String) (regex : List String)
    (hd : itemsDropped out₁ out₂)
    (h : processField fa (some f) text out₁ fld regex = .ok out₁') :
    ∃ out₂', processField fa (some g) text out₂ fld regex = .ok out₂' ∧
      itemsDropped out₁' out₂' := by
  unfold processField at h ⊢
  revert h
  generalize match_patterns fa text regex (decide (fld = "items")) = result
  intro h
  by_cases hfld : fld = "items"
  · subst hfld
    by_cases hres : result.length = 0
    · unfold processFieldResult at h ⊢
      rw [fieldValue_skip _ _ _ _ hres] at h ⊢
      simp only at h
      exact ⟨out₂, rfl, (Except.ok.inj h) ▸ hd⟩
    · have ha₂ : Dict.get? out₂ "amount" = Dict.get? out₁ "amount" :=
        hd.2.1 "amount" (by decide)
      unfold processFieldResult at h ⊢
      rw [fieldValue_items _ _ _ hres] at h ⊢
      rw [ha₂]
      revert h
      cases ha₁ : Dict.get? out₁ "amount" with
      | none => intro h; simp at h
      | some amt =>
          cases hf : f result amt with
          | error e => intro h; simp [hf] at h
          | ok v =>
              intro h
              simp only [hf] at h
              simp only [hg result amt]
              refine ⟨Dict.set out₂ "items" PyVal.none, rfl, ?_⟩
              simp at h
              rw [← h]
              exact itemsDropped_set _ _ _ _ _ hd (fun _ => rfl)
                (fun hc => absurd rfl hc)
  · unfold processFieldResult at h ⊢
    rw [fieldValue_indep (some g) (some f) (Dict.get? out₂ "amount")
      (Dict.get? out₁ "amount") fld result hfld]
    revert h
    cases hfv : fieldValue (some f) (Dict.get? out₁ "amount") fld result with
    | error e => intro h; simp at h
    | ok o =>
        cases o with
        | none =>
            intro h
            simp only at h
            exact ⟨out₂, rfl, (Except.ok.inj h) ▸ hd⟩
        | some v =>
            intro h
            simp at h
            refine ⟨Dict.set out₂ fld v, rfl, ?_⟩
            rw [← h]
            exact itemsDropped_set _ _ _ _ _ hd
              (fun hc => absurd hc hfld) (fun _ => rfl)

/-- The whole field loop preserves `itemsDropped`. -/
theorem processFields_dropped (fa : FindAll) (text : String)
    (f g : ParseItems) (hg : ∀ res amt, g res amt = .ok PyVal.none) :
    ∀ (fields : List (String × List String)) (out₁ out₂ out₁' : Dict),
      itemsDropped out₁ out₂ →
      processFields fa (some f) text fields out₁ = .ok out₁' →
      ∃ out₂', processFields fa (some g) text fields out₂ = .ok out₂' ∧
        itemsDropped out₁' out₂'
  | [], out₁, out₂, out₁', hd, h => by
      simp only [processFields] at h
      exact ⟨out₂, rfl, (Except.ok.inj h) ▸ hd⟩
  | (fld, regex) :: rest, out₁, out₂, out₁', hd, h => by
      simp only [processFields] at h
      revert h
      cases hstep : processField fa (some f) text out₁ fld regex with
      | error e => intro h; simp at h
      | ok mid₁ =>
          intro h
          simp only at h
          obtain ⟨mid₂, hstep₂, hd'⟩ :=
            processField_dropped fa text f g hg out₁ out₂ mid₁ fld regex hd hstep
          obtain ⟨out₂', hrest, hd''⟩ :=
            processFields_dropped fa text f g hg rest mid₁ mid₂ out₁' hd' h
          exact ⟨out₂', by simp only [processFields, hstep₂]; exact hrest, hd''⟩

/-- The required-fields check only looks at the output keys. -/
theorem requiredUnmatched_eq (t : Templ) {out₁ out₂ : Dict}
    (h : Dict.keys out₂ = Dict.keys out₁) :
    requiredUnmatched t out₂ = requiredUnmatched t out₁ := by
  unfold requiredUnmatched
  apply List.filter_congr
  intro f _
  rw [hasKey_eq_of_keys_eq h f]

/-- The final asserts only look at the values of the keys they assert. -/
theorem assertsLoop_congr (out₁ out₂ : Dict) (ks : List String)
    (h : ∀ k ∈ ks, Dict.get? out₂ k = Dict.get? out₁ k) :
    assertsLoop out₂ ks = assertsLoop out₁ ks := by
  induction ks with
  | nil => rfl
  | cons k ks ih =>
      simp only [assertsLoop, assertNotNone, h k (by simp)]
      cases hget : Dict.get? out₁ k with
      | none => rfl
      | some v =>
          cases v <;>
            first
              | rfl
              | exact ih (fun k' hk' => h k' (by simp [hk']))

theorem assertNotNone_ok (out : Dict) (k : String) {u : Unit}
    (h : assertNotNone out k = .ok u) :
    ∃ v, Dict.get? out k = some v ∧ v ≠ PyVal.none := by
  revert h
  unfold assertNotNone
  cases hget : Dict.get? out k with
  | none => intro h; simp at h
  | some v =>
      cases v with
      | none => intro h; simp at h
      | int n => intro h; exact ⟨.int n, rfl, by simp⟩
      | float q => intro h; exact ⟨.float q, rfl, by simp⟩
      | str s => intro h; exact ⟨.str s, rfl, by simp⟩
      | list xs => intro h; exact ⟨.list xs, rfl, by simp⟩

theorem assertsLoop_ok_mem (out : Dict) :
    ∀ (ks : List String), assertsLoop out ks = .ok () →
      ∀ k ∈ ks, ∃ v, Dict.get? out k = some v ∧ v ≠ PyVal.none
  | [] => by intro h k hk; simp at hk
  | k' :: ks => by
      intro h k hk
      simp only [assertsLoop] at h
      revert h
      cases hcase : assertNotNone out k' with
      | error e => intro h; simp at h
      | ok u =>
          intro h
          simp only at h
          rcases List.mem_cons.1 hk with rfl | hk'
          · exact assertNotNone_ok out k hcase
          · exact assertsLoop_ok_mem out ks h k hk'

/-- C7: a line-item reconciliation mismatch never fails the extraction.
(i) `ObiParser._parse_penalty` returns `None` (not an exception) when the
row sum disagrees with the document amount, (ii) so does
`RollerParser._parse_return`, and (iii) at the `Template.extract` level,
replacing the reconciler of a successful run by one that always signals a
mismatch (`None`, as the reconcilers do) still succeeds, producing the same
record except that the `items` value becomes `None`. -/
theorem C7_items_mismatch_tolerated :
    (∀ (items : List PyVal) (amount : PyVal) (res : List PyVal) (s : ℚ),
      obi_penalty_loop items [] 0 = .ok (some (res, s)) →
      pyNeQ (roundQ2 s) amount = true →
      obi_parse_penalty items amount = .ok PyVal.none) ∧
    (∀ (items : List PyVal) (amount : PyVal) (res : List PyVal) (s : ℚ),
      roller_return_loop items [] 0 = .ok (res, s) →
      pyNeQ (roundQ2 s) amount = true →
      roller_parse_return items amount = .ok PyVal.none) ∧
    (∀ (t : Templ) (f g : ParseItems) (fa : FindAll) (text : String) (out : Dict),
      (∀ res amt, g res amt = .ok PyVal.none) →
      Templ.extract t (some f) fa text = .ok out →
      ∃ out', Templ.extract t (some g) fa text = .ok out' ∧
        Dict.keys out' = Dict.keys out ∧
        (∀ k, k ≠ "items" → Dict.get? out' k = Dict.get? out k) ∧
        (Dict.hasKey out "items" = true →
          Dict.get? out' "items" = some PyVal.none)) := by
  refine ⟨?_, ?_, ?_⟩
  · intro items amount res s h hne
    unfold obi_parse_penalty
    rw [h]
    simp [hne]
  · intro items amount res s h hne
    unfold roller_parse_return
    rw [h]
    simp [hne]
  · intro t f g fa text out hg h
    unfold Templ.extract at h
    revert h
    cases hpf : processFields fa (some f) text t.fields
        [("issuer", .str t.issuer), ("name", .str t.name), ("kind", .str t.kind),
         ("template_id", .str t.template_id), ("category", t.category)] with
    | error e => intro h; simp at h
    | ok out₁ =>
        intro h
        have hd0 : itemsDropped
            [("issuer", .str t.issuer), ("name", .str t.name),
             ("kind", .str t.kind), ("template_id", .str t.template_id),
             ("category", t.category)]
            [("issuer", .str t.issuer), ("name", .str t.name),
             ("kind", .str t.kind), ("template_id", .str t.template_id),
             ("category", t.category)] := by
          refine ⟨rfl, fun _ _ => rfl, fun v hv => ?_⟩
          simp [Dict.get?] at hv
        obtain ⟨out₂, hpf₂, hd⟩ :=
          processFields_dropped fa text f g hg t.fields _ _ out₁ hd0 hpf
        simp only at h
        split at h
        · simp at h
        · rename_i hreq
          revert h
          cases hfa : finalAsserts out₁ with
          | error e => intro h; simp at h
          | ok u =>
              intro h
              simp only at h
              have hout : out₁ = out := Except.ok.inj h
              subst hout
              refine ⟨out₂, ?_, hd.1, hd.2.1, ?_⟩
              · unfold Templ.extract
                rw [hpf₂]
                simp only
                rw [if_neg (by rw [requiredUnmatched_eq t hd.1]; exact hreq)]
                have hfa₂ : finalAsserts out₂ = finalAsserts out₁ := by
                  unfold finalAsserts
                  refine assertsLoop_congr out₁ out₂ _ (fun k hk => ?_)
                  refine hd.2.1 k ?_
                  fin_cases hk <;> decide
                rw [hfa₂, hfa]
              · intro hhk
                have hk₂ : Dict.hasKey out₂ "items" = true := by
                  rw [hasKey_eq_of_keys_eq hd.1]
                  exact hhk
                unfold Dict.hasKey at hk₂
                obtain ⟨v, hv⟩ := Option.isSome_iff_exists.1 hk₂
                rw [hv, hd.2.2 v hv]

/-- Concrete composite template for the C7 witness. -/
def c7t : Templ :=
  ⟨"OBI", "penalty", "debit", "T7", .str "penalty_general",
   ⟨false, false, []⟩,
   [("amount", ["rxA"]), ("document_number", ["rxD"]), ("items", ["rxI"])],
   [], ["kw"], []⟩

def c7fa : FindAll := fun patt _ =>
  if patt = "rxA" then [.str "10,00"]
  else if patt = "rxD" then [.str "123"]
  else if patt = "rxI" then [.list [.str "x"]]
  else []

def c7f : ParseItems := fun res _ => .ok (.list res)

def c7g : ParseItems := fun _ _ => .ok PyVal.none

def c7out : Dict :=
  [("issuer", .str "OBI"), ("name", .str "penalty"), ("kind", .str "debit"),
   ("template_id", .str "T7"), ("category", .str "penalty_general"),
   ("amount", .float 10), ("document_number", .int 123),
   ("items", .list [.list [.str "x"]])]

theorem C7_items_mismatch_tolerated_witness :
    obi_parse_penalty [.list [.str "2,00", .str "12345", .str "100,00"]]
      (.float 3) = .ok PyVal.none ∧
    roller_parse_return
      [.list [.str "1", .str "10,00", .str "19,00", .str "1,90", .str "11,90"]]
      (.float 5) = .ok PyVal.none ∧
    (∃ out', Templ.extract c7t (some c7g) c7fa "" = .ok out' ∧
      Dict.keys out' = Dict.keys c7out ∧
      (∀ k, k ≠ "items" → Dict.get? out' k = Dict.get? c7out k) ∧
      (Dict.hasKey c7out "items" = true →
        Dict.get? out' "items" = some PyVal.none)) := by
  refine ⟨?_, ?_, ?_⟩
  · exact C7_items_mismatch_tolerated.1
      [.list [.str "2,00", .str "12345", .str "100,00"]] (.float 3)
      [.list [.float 2, .int 12345, .float 100]] 2
      (by with_unfolding_all rfl) (by with_unfolding_all rfl)
  · exact C7_items_mismatch_tolerated.2.1
      [.list [.str "1", .str "10,00", .str "19,00", .str "1,90", .str "11,90"]]
      (.float 5)
      [.list [.int 1, .float 10, .float 19, .float (119 / 10)]] (119 / 10)
      (by with_unfolding_all rfl) (by with_unfolding_all rfl)
  · exact C7_items_mismatch_tolerated.2.2 c7t c7f c7g c7fa "" c7out
      (fun _ _ => rfl) (by with_unfolding_all rfl)

/-- The success-side typing invariant for the `amount` output value. -/
def amountTyped (out : Dict) : Prop :=
  ∀ v, Dict.get? out "amount" = some v → ∃ q, v = .float q ∧ 0 < q

theorem processFieldResult_amountTyped (p : Option ParseItems) (out : Dict)
    (fld : String) (result : List PyVal) (out' : Dict)
    (h : processFieldResult p out fld result = .ok out')
    (hP : amountTyped out) : amountTyped out' := by
  unfold processFieldResult at h
  revert h
  cases hfv : fieldValue p (Dict.get? out "amount") fld result with
  | error e => intro h; simp at h
  | ok o =>
      cases o with
      | none =>
          intro h
          simp only at h
          rw [← Except.ok.inj h]
          exact hP
      | some v =>
          intro h
          simp only at h
          rw [← Except.ok.inj h]
          intro w hw
          by_cases hfld : fld = "amount"
          · subst hfld
            rw [Dict.get?_set_self] at hw
            obtain ⟨q, hq, hpos⟩ := fieldValue_amount_pos p _ result v hfv
            rw [← Option.some.inj hw, hq]
            exact ⟨q, rfl, hpos⟩
          · rw [Dict.get?_set_other _ _ _ _ (fun hh => hfld hh.symm)] at hw
            exact hP w hw

theorem processFields_amountTyped (fa : FindAll) (p : Option ParseItems)
    (text : String) :
    ∀ (fields : List (String × List String)) (out out' : Dict),
      processFields fa p text fields out = .ok out' →
      amountTyped out → amountTyped out'
  | [], out, out' => by
      intro h hP
      simp only [processFields] at h
      rw [← Except.ok.inj h]
      exact hP
  | (fld, regex) :: rest, out, out' => by
      intro h hP
      simp only [processFields] at h
      revert h
      cases hstep : processField fa p text out fld regex with
      | error e => intro h; simp at h
      | ok mid =>
          intro h
          simp only at h
          refine processFields_amountTyped fa p text rest mid out' h ?_
          unfold processField at hstep
          exact processFieldResult_amountTyped p out fld _ mid hstep hP

/-- C1 (amended): a successful extraction yields a record in which every
required field is present as a key, the `amount` value is a strictly
positive float, and the `document_number` value is non-null.  (The claim's
error side is refuted by `C1_counterexample`: a required field's value can
be `None` after a failed item reconciliation, and `ValueError`/`TypeError`
escape `Template.extract` for non-positive or ill-typed amounts.) -/
theorem C1_extract_success_typing (t : Templ) (parser : Option ParseItems)
    (fa : FindAll) (text : String) (out : Dict)
    (h : Templ.extract t parser fa text = .ok out) :
    (∀ f ∈ t.fields.map Prod.fst, f ∉ t.optional_fields →
      Dict.hasKey out f = true) ∧
    (∃ q, Dict.get? out "amount" = some (.float q) ∧ 0 < q) ∧
    (∃ v, Dict.get? out "document_number" = some v ∧ v ≠ PyVal.none) := by
  unfold Templ.extract at h
  revert h
  cases hpf : processFields fa parser text t.fields
      [("issuer", .str t.issuer), ("name", .str t.name), ("kind", .str t.kind),
       ("template_id", .str t.template_id), ("category", t.category)] with
  | error e => intro h; simp at h
  | ok out₁ =>
      intro h
      simp only at h
      split at h
      · simp at h
      · rename_i hreq
        revert h
        cases hfa : finalAsserts out₁ with
        | error e => intro h; simp at h
        | ok u =>
            intro h
            simp only at h
            rw [← Except.ok.inj h]
            have hnil : requiredUnmatched t out₁ = [] := not_ne_iff.1 hreq
            unfold requiredUnmatched at hnil
            have hP : amountTyped out₁ := by
              refine processFields_amountTyped fa parser text t.fields _ out₁
                hpf (fun v hv => ?_)
              simp [Dict.get?] at hv
            refine ⟨?_, ?_, ?_⟩
            · intro f hf hopt
              have h2 := List.filter_eq_nil_iff.1 hnil f hf
              simp only [decide_eq_true_eq, not_and, not_not] at h2
              exact h2 hopt
            · obtain ⟨v, hv, hvne⟩ :=
                assertsLoop_ok_mem out₁ _ hfa "amount" (by simp)
              obtain ⟨q, rfl, hq⟩ := hP v hv
              exact ⟨q, hv, hq⟩
            · exact assertsLoop_ok_mem out₁ _ hfa "document_number" (by simp)

/-- Regex oracle for the C1 counterexample and witness. -/
def c1fa : FindAll := fun patt _ =>
  if patt = "rxA0" then [.str "0,00"]
  else if patt = "rxA" then [.str "1,00"]
  else if patt = "rxD" then [.str "123"]
  else if patt = "rxI" then [.list [.str "1,00", .str "123", .str "100,00"]]
  else []

/-- Template whose (required) amount extracts as `0,00`. -/
def c1t1 : Templ :=
  ⟨"OBI", "neg-amount", "debit", "T1A", .str "price", ⟨false, false, []⟩,
   [("document_number", ["rxD"]), ("amount", ["rxA0"])], [], ["kw"], []⟩

/-- Composite template with a required `items` field whose reconciliation
fails (tax rate 1% instead of 2%/25% in `ObiParser._parse_penalty`). -/
def c1t2 : Templ :=
  ⟨"OBI", "penalty", "debit", "T1B", .str "penalty_general", ⟨false, false, []⟩,
   [("amount", ["rxA"]), ("document_number", ["rxD"]), ("items", ["rxI"])],
   [], ["kw"], []⟩

def c1out : Dict :=
  [("issuer", .str "OBI"), ("name", .str "penalty"), ("kind", .str "debit"),
   ("template_id", .str "T1B"), ("category", .str "penalty_general"),
   ("amount", .float 1), ("document_number", .int 123),
   ("items", PyVal.none)]

/-- C1 counterexample: (i) an extracted amount of `0,00` raises `ValueError`
(`parsers.py:1015`), which is neither `TemplateNotFoundError` nor
`PatternMatchError`; (ii) a required `items` field whose reconciliation
fails is stored as `None` and extraction nevertheless returns a record, so
a required field of the returned record can be null. -/
theorem C1_counterexample :
    Templ.extract c1t1 Option.none c1fa "" =
      .error (.valueError
        "Extracted document amount must be a non-zero positive float!") ∧
    Templ.extract c1t2 (some obi_parse_penalty) c1fa "" = .ok c1out ∧
    "items" ∈ c1t2.fields.map Prod.fst ∧ "items" ∉ c1t2.optional_fields ∧
    Dict.get? c1out "items" = some PyVal.none := by
  refine ⟨by with_unfolding_all rfl, by with_unfolding_all rfl,
    by decide, by decide, rfl⟩

theorem C1_extract_success_typing_witness :
    (∀ f ∈ c1t2.fields.map Prod.fst, f ∉ c1t2.optional_fields →
      Dict.hasKey c1out f = true) ∧
    (∃ q, Dict.get? c1out "amount" = some (.float q) ∧ 0 < q) ∧
    (∃ v, Dict.get? c1out "document_number" = some v ∧ v ≠ PyVal.none) :=
  C1_extract_success_typing c1t2 (some obi_parse_penalty) c1fa "" c1out
    (by with_unfolding_all rfl)

/-- C8 (amended): template selection returns the extraction of the FIRST
template whose keywords match, regardless of how many later templates also
match - `Extractor._extract_data` never detects ambiguity (the claim's
multiple-match error is refuted by `C8_counterexample`). -/
theorem C8_first_template_wins (fa : FindAll) (sub : ReSub)
    (parserFor : Templ → Option ParseItems) (text : String)
    (pre : List Templ) (t : Templ) (post : List Templ)
    (hpre : ∀ t' ∈ pre,
      matches_keywords fa t' (prepare_input sub t' text) = false)
    (ht : matches_keywords fa t (prepare_input sub t text) = true) :
    extract_data fa sub parserFor text (pre ++ t :: post) =
      Templ.extract t (parserFor t) fa (prepare_input sub t text) := by
  induction pre with
  | nil =>
      simp only [List.nil_append, extract_data]
      rw [if_pos ht]
  | cons t' pre' ih =>
      simp only [List.cons_append, extract_data]
      rw [if_neg (by rw [hpre t' (by simp)]; simp)]
      exact ih (fun x hx => hpre x (by simp [hx]))

/-- Identical-keyword templates for the C8 counterexample. -/
def c8t1 : Templ :=
  ⟨"OBI", "one", "debit", "T81", .str "price", ⟨false, false, []⟩,
   [("document_number", ["rxD"]), ("amount", ["rxA"])], [], ["kw"], []⟩

def c8t2 : Templ :=
  ⟨"OBI", "two", "debit", "T82", .str "price", ⟨false, false, []⟩,
   [("document_number", ["rxD"]), ("amount", ["rxA"])], [], ["kw"], []⟩

/-- A template whose inclusive keyword does not match. -/
def c8pre : Templ :=
  ⟨"OBI", "zero", "debit", "T80", .str "price", ⟨false, false, []⟩,
   [("document_number", ["rxD"]), ("amount", ["rxA"])], [], ["nokw"], []⟩

def c8fa : FindAll := fun patt _ =>
  if patt = "kw" then [.str "k"]
  else if patt = "rxD" then [.str "123"]
  else if patt = "rxA" then [.str "10,00"]
  else []

def c8sub : ReSub := fun _ _ text => text

def c8out : Dict :=
  [("issuer", .str "OBI"), ("name", .str "one"), ("kind", .str "debit"),
   ("template_id", .str "T81"), ("category", .str "price"),
   ("document_number", .int 123), ("amount", .float 10)]

/-- C8 counterexample: both templates match the text, yet
`Extractor._extract_data` silently returns the first template's data
instead of failing with an ambiguity error. -/
theorem C8_counterexample :
    matches_keywords c8fa c8t1 (prepare_input c8sub c8t1 "d") = true ∧
    matches_keywords c8fa c8t2 (prepare_input c8sub c8t2 "d") = true ∧
    extract_data c8fa c8sub (fun _ => Option.none) "d" [c8t1, c8t2] =
      .ok c8out ∧
    Dict.get? c8out "template_id" = some (.str "T81") := by
  refine ⟨rfl, rfl, by with_unfolding_all rfl, rfl⟩

theorem C8_first_template_wins_witness :
    extract_data c8fa c8sub (fun _ => Option.none) "d" [c8pre, c8t1, c8t2] =
      Templ.extract c8t1 Option.none c8fa (prepare_input c8sub c8t1 "d") :=
  C8_first_template_wins c8fa c8sub (fun _ => Option.none) "d"
    [c8pre] c8t1 [c8t2]
    (by intro t' ht'; rw [List.mem_singleton.1 ht']; rfl) rfl

end ClaimMgmt
